import Mathlib

/-!
Verification of the lucky-dog distributed passphrase-search coordinator.

This file is a shallow embedding, in Lean 4, of the coordinator in
`src/server.js`, the candidate-store insertion module (`insertToDb` in
`db.js`), and the worker-side cryptographic verification pipeline of the
client, together with theorems settling the specification claims.

Modelling conventions:
  * The SQLite `records` table is a `List Row`; `ORDER BY id` is realised
    with an insertion sort by `id`, `UPDATE ... WHERE` with `List.map`.
  * Wall-clock time (`strftime('%s','now')`, `Date.now()`,
    `new Date().toISOString()`) is passed in explicitly as a `Clock`.
  * The marker artifact `found_password.txt` is the list of appended
    stanzas; presence of the file is non-emptiness of the list.
  * JavaScript truthiness of strings ("" is falsy) is modelled explicitly
    where the source relies on it.
  * The `/work/result` handler is modelled as the list of effects it
    performs in source order (`Event`), so that ordering facts (latch and
    marker write before the acknowledgment) are visible; its state update
    is the fold of those effects.
-/

namespace LuckyDog

/-! ### Generic byte/string helpers -/

/-- Split a list into consecutive chunks of size `n` (fuel-based; with
positive `n` the fuel `l.length` always suffices). -/
def chunksGo (n : Nat) : Nat → List α → List (List α)
  | 0, _ => []
  | _, [] => []
  | fuel+1, l => l.take n :: chunksGo n fuel (l.drop n)

/-- Consecutive chunks of size `n` of a list. -/
def chunksOf (n : Nat) (l : List α) : List (List α) :=
  chunksGo n l.length l

/-- Big-endian interpretation of a byte list as a natural number. -/
def beWord (bs : List Nat) : Nat :=
  bs.foldl (fun acc b => acc * 256 + b) 0

/-- The `n`-byte big-endian representation of `x`. -/
def beBytes (n : Nat) (x : Nat) : List Nat :=
  (List.range n).map (fun i => x / 256 ^ (n - 1 - i) % 256)

/-- JavaScript `String.prototype.trim`: drop leading and trailing
whitespace. -/
def jsTrim (s : String) : String :=
  ⟨((s.data.dropWhile Char.isWhitespace).reverse.dropWhile Char.isWhitespace).reverse⟩

/-- JavaScript `String.prototype.startsWith`. -/
def strStartsWith (s p : String) : Bool :=
  p.data.isPrefixOf s.data

/-- JavaScript `String.prototype.slice(n)` for a non-negative `n`
(ASCII-equivalent character drop). -/
def strDropChars (s : String) (n : Nat) : String :=
  ⟨s.data.drop n⟩

/-- Value of a hexadecimal digit, if the character is one. -/
def hexDigit (c : Char) : Option Nat :=
  if '0' ≤ c ∧ c ≤ '9' then some (c.toNat - '0'.toNat)
  else if 'a' ≤ c ∧ c ≤ 'f' then some (c.toNat - 'a'.toNat + 10)
  else if 'A' ≤ c ∧ c ≤ 'F' then some (c.toNat - 'A'.toNat + 10)
  else none

/-- Node `Buffer.from(s, 'hex')` body: decode hex pairs, stopping at the
first character pair that is not two hex digits (Node truncates there). -/
def hexPairsGo : List Char → List Nat
  | c1 :: c2 :: rest =>
    match hexDigit c1, hexDigit c2 with
    | some h, some l => (16 * h + l) :: hexPairsGo rest
    | _, _ => []
  | _ => []

/-- Node `Buffer.from(s, 'hex')` as a byte list. -/
def hexToBytes (s : String) : List Nat :=
  hexPairsGo s.data

/-- UTF-8 encoding of a single character, as byte values. -/
def utf8EncodeCharNat (c : Char) : List Nat :=
  let n := c.toNat
  if n < 128 then [n]
  else if n < 2048 then [192 ||| (n >>> 6), 128 ||| (n &&& 63)]
  else if n < 65536 then
    [224 ||| (n >>> 12), 128 ||| ((n >>> 6) &&& 63), 128 ||| (n &&& 63)]
  else
    [240 ||| (n >>> 18), 128 ||| ((n >>> 12) &&& 63),
     128 ||| ((n >>> 6) &&& 63), 128 ||| (n &&& 63)]

/-- Node `Buffer.from(s, 'utf8')` as a byte list. -/
def utf8Bytes (s : String) : List Nat :=
  (s.data.map utf8EncodeCharNat).flatten

/-! ### Candidate store data model (table `records`) -/

/-- Row status: the `STATUS` enumeration of `server.js` / `db.js`
(`UNCHECK = 0`, `CHECKING = 1`, `CHECKED = 2`). -/
inductive Status
  | uncheck
  | checking
  | checked
deriving DecidableEq

/-- A row of the `records` table. -/
structure Row where
  id : Nat
  pwd : String
  status : Status
  updated_at : Nat
deriving DecidableEq

/-- Coordinator state: the table, the in-memory latch `passwordFound`,
and the marker artifact `found_password.txt` (list of appended stanzas). -/
structure ServerState where
  records : List Row
  passwordFound : Bool
  marker : List String
deriving DecidableEq

/-! ### Encrypted wallet descriptor (`encrypt.json`) -/

/-- The wallet descriptor distributed to workers. The binary fields are
hex strings exactly as in `encrypt.json`. -/
structure EncryptDesc where
  encrypted_key : String
  encrypted_privkey : String
  uncompressed_public_key : String
  salt : String
  derivationiterations : Nat
deriving DecidableEq

/-- Static coordinator configuration (environment). -/
structure Config where
  apiToken : String
  dbName : String
  encrypt : EncryptDesc
deriving DecidableEq

/-- Ambient clock values a request handler observes: epoch seconds
(`strftime('%s','now')`), epoch milliseconds (`Date.now()`), and the ISO
time string (`new Date().toISOString()`). -/
structure Clock where
  now : Nat
  nowMs : Nat
  isoTime : String
deriving DecidableEq

/-! ### The `/work/request` handler (lease issue) -/

/-- Batch size computation: `Math.max(100, cpuCount * 100)`. -/
def batchSize (cpuCount : Int) : Int :=
  max 100 (cpuCount * 100)

/-- SQL `ORDER BY id` over a row set. -/
def orderById (rs : List Row) : List Row :=
  List.insertionSort (fun a b => a.id ≤ b.id) rs

/-- SQL `WHERE status = UNCHECK` over a row set. -/
def uncheckedRows (rs : List Row) : List Row :=
  rs.filter (fun r => r.status = Status.uncheck)

/-- The `SELECT id, pwd FROM records WHERE status = 0 ORDER BY id LIMIT n`
of the lease handler. -/
def leaseSelection (rs : List Row) (n : Nat) : List Row :=
  (orderById (uncheckedRows rs)).take n

/-- The `UPDATE records SET status = CHECKING, updated_at = now WHERE id
IN (...)` of the lease handler. -/
def setChecking (now : Nat) (ids : List Nat) (rs : List Row) : List Row :=
  rs.map (fun r =>
    if r.id ∈ ids then { r with status := Status.checking, updated_at := now } else r)

/-- Response body of `/work/request` (JSON fields; `Option` marks fields
absent in some branches). -/
structure LeaseResp where
  success : Bool
  message : Option String
  passwords : List String
  encrypt : Option EncryptDesc
  passwordFound : Option Bool
  batchId : Option String
  count : Option Nat
deriving DecidableEq

/-- Response body of `/work/result`. -/
structure ResultResp where
  success : Bool
  message : Option String
  shouldStop : Option Bool
  passwordFound : Option Bool
deriving DecidableEq

/-- Any response the modelled endpoints can produce. -/
inductive Response
  | badRequest (error : String)
  | forbidden (error : String)
  | serverError
  | lease (r : LeaseResp)
  | result (r : ResultResp)
  | found (success : Bool) (passwordFound : Bool)
  | resetFoundOk (previouslyFound : Bool) (recordsReset : Nat)
  | resetTimeoutOk (resetCount : Nat)
deriving DecidableEq

/-- The `POST /work/request` handler of `server.js`. -/
def handleWorkRequest (cfg : Config) (st : ServerState) (cpuCount : Int)
    (clientId : String) (t : Clock) : ServerState × Response :=
  if clientId = "" then
    (st, .badRequest "clientId is required")
  else if st.passwordFound then
    (st, .lease { success := false,
                  message := some "Password already found, no more work needed",
                  passwords := [], encrypt := none, passwordFound := some true,
                  batchId := none, count := none })
  else
    let sel := leaseSelection st.records (batchSize cpuCount).toNat
    if sel = [] then
      (st, .lease { success := false,
                    message := some "No more passwords to check",
                    passwords := [], encrypt := none, passwordFound := none,
                    batchId := none, count := none })
    else
      ({ st with records := setChecking t.now (sel.map Row.id) st.records },
       .lease { success := true, message := none,
                passwords := sel.map Row.pwd, encrypt := some cfg.encrypt,
                passwordFound := none,
                batchId := some (clientId ++ "-" ++ toString t.nowMs),
                count := some sel.length })

/-! ### The `/work/result` handler (effect-trace model) -/

/-- JavaScript truthiness of an optional string body field. -/
def optTruthy : Option String → Bool
  | none => false
  | some s => !(s == "")

/-- The stanza `/work/result` appends to `found_password.txt`. -/
def foundStanza (foundPassword clientId isoTime : String) : String :=
  "找到密码: " ++ foundPassword ++ "\n时间: " ++ isoTime ++ "\n客户端: " ++ clientId ++ "\n"

/-- The stanza `/work/found` appends to `found_password.txt`. -/
def foundConfirmStanza (password clientId isoTime : String) : String :=
  "确认找到密码: " ++ password ++ "\n时间: " ++ isoTime ++ "\n客户端: " ++ clientId
    ++ "\n重复确认: 是\n\n"

/-- One sequential effect of the `/work/result` handler. -/
inductive Event
  | setLatch
  | appendMarker (stanza : String)
  | markChecked (pwds : List String)
  | respond (r : Response)
deriving DecidableEq

/-- The failure-path transaction: for each reported passphrase,
`UPDATE records SET status = CHECKED, updated_at = now WHERE pwd = ?`. -/
def markCheckedRun (now : Nat) (rs : List Row) (pwds : List String) : List Row :=
  pwds.foldl
    (fun acc p => acc.map (fun r =>
      if r.pwd = p then { r with status := Status.checked, updated_at := now } else r))
    rs

/-- The `POST /work/result` handler as its list of effects in source
order. -/
def workResultEvents (batchId : String) (success : Bool)
    (foundPassword : Option String) (passwords : List String)
    (clientId : String) (isoTime : String) : List Event :=
  if batchId = "" ∨ clientId = "" then
    [.respond (.badRequest "batchId and clientId are required")]
  else if success ∧ optTruthy foundPassword then
    [.setLatch,
     .appendMarker (foundStanza (foundPassword.getD "") clientId isoTime),
     .respond (.result { success := true,
                         message := some "Password found! All work stopped!",
                         shouldStop := some true, passwordFound := some true })]
  else if passwords = [] then
    [.respond (.result { success := true, message := some "Results recorded",
                         shouldStop := none, passwordFound := none })]
  else
    [.markChecked passwords,
     .respond (.result { success := true, message := some "Results recorded",
                         shouldStop := none, passwordFound := none })]

/-- Apply one `/work/result` effect to the coordinator state. -/
def applyEvent (now : Nat) (st : ServerState) : Event → ServerState
  | .setLatch => { st with passwordFound := true }
  | .appendMarker s => { st with marker := st.marker ++ [s] }
  | .markChecked pwds => { st with records := markCheckedRun now st.records pwds }
  | .respond _ => st

/-- The response carried by an effect trace (first `respond` event). -/
def eventsResponse : List Event → Response
  | [] => .serverError
  | .respond r :: _ => r
  | _ :: rest => eventsResponse rest

/-- The `POST /work/result` handler of `server.js`. -/
def handleWorkResult (st : ServerState) (batchId : String) (success : Bool)
    (foundPassword : Option String) (passwords : List String)
    (clientId : String) (t : Clock) : ServerState × Response :=
  let evs := workResultEvents batchId success foundPassword passwords clientId t.isoTime
  (evs.foldl (applyEvent t.now) st, eventsResponse evs)

/-! ### The remaining mutating handlers -/

/-- The `POST /work/found` handler of `server.js`. -/
def handleWorkFound (st : ServerState) (password clientId : String)
    (t : Clock) : ServerState × Response :=
  if password = "" ∨ clientId = "" then
    (st, .badRequest "password and clientId are required")
  else
    ({ st with passwordFound := true,
               marker := st.marker ++ [foundConfirmStanza password clientId t.isoTime] },
     .found true true)

/-- The `UPDATE records SET status = UNCHECK, updated_at = now` of the
sample-store reset. -/
def resetAllRows (now : Nat) (rs : List Row) : List Row :=
  rs.map (fun r => { r with status := Status.uncheck, updated_at := now })

/-- The `POST /work/reset-found` handler of `server.js` (policy-gated to
the sample database). -/
def handleResetFound (cfg : Config) (st : ServerState) (t : Clock) :
    ServerState × Response :=
  if cfg.dbName ≠ "lucky-sample.db" then
    (st, .forbidden "Reset is only allowed for sample database (lucky-sample.db)")
  else
    ({ records := resetAllRows t.now st.records, passwordFound := false, marker := [] },
     .resetFoundOk (!st.marker.isEmpty) st.records.length)

/-- The `WHERE status = CHECKING AND updated_at < now - 3600` predicate of
the stale-lease sweeper. -/
def staleChecking (now : Nat) (r : Row) : Bool :=
  r.status == Status.checking && decide ((r.updated_at : Int) < (now : Int) - 3600)

/-- The `UPDATE` of the stale-lease sweeper. -/
def resetStale (now : Nat) (rs : List Row) : List Row :=
  rs.map (fun r =>
    if staleChecking now r then { r with status := Status.uncheck, updated_at := now } else r)

/-- The `POST /work/reset-timeout` handler of `server.js` (also the body
of the hourly sweeper task). -/
def handleResetTimeout (st : ServerState) (t : Clock) : ServerState × Response :=
  ({ st with records := resetStale t.now st.records },
   .resetTimeoutOk (st.records.countP (staleChecking t.now)))

/-! ### Request dispatch and traces -/

/-- A mutating request to the coordinator. -/
inductive Request
  | workRequest (cpuCount : Int) (clientId : String)
  | workResult (batchId : String) (success : Bool) (foundPassword : Option String)
      (passwords : List String) (clientId : String)
  | workFound (password : String) (clientId : String)
  | resetFound
  | resetTimeout
deriving DecidableEq

/-- Dispatch one request to its handler. -/
def step (cfg : Config) (st : ServerState) (req : Request) (t : Clock) :
    ServerState × Response :=
  match req with
  | .workRequest cpuCount clientId => handleWorkRequest cfg st cpuCount clientId t
  | .workResult b s f p c => handleWorkResult st b s f p c t
  | .workFound p c => handleWorkFound st p c t
  | .resetFound => handleResetFound cfg st t
  | .resetTimeout => handleResetTimeout st t

/-- Process a list of timestamped requests, collecting the responses. -/
def run (cfg : Config) : ServerState → List (Request × Clock) → ServerState × List Response
  | st, [] => (st, [])
  | st, (req, t) :: rest =>
    let s1 := step cfg st req t
    let r1 := run cfg s1.1 rest
    (r1.1, s1.2 :: r1.2)

/-- The ids a `/work/request` call reserves (flips to CHECKING). -/
def reservedIds (st : ServerState) (cpuCount : Int) (clientId : String) : List Nat :=
  if clientId = "" then []
  else if st.passwordFound then []
  else (leaseSelection st.records (batchSize cpuCount).toNat).map Row.id

/-! ### SHA-512 and SHA-256 (`crypto.createHash`) -/

/-- Reduce modulo `2 ^ 64`. -/
def w64 (x : Nat) : Nat := x % 18446744073709551616

/-- Bitwise complement within 64 bits. -/
def not64 (x : Nat) : Nat := x ^^^ 18446744073709551615

/-- Right rotation of a 64-bit word. -/
def rotr64 (x n : Nat) : Nat := w64 ((x >>> n) ||| (x <<< (64 - n)))

/-- Reduce modulo `2 ^ 32`. -/
def w32 (x : Nat) : Nat := x % 4294967296

/-- Bitwise complement within 32 bits. -/
def not32 (x : Nat) : Nat := x ^^^ 4294967295

/-- Right rotation of a 32-bit word. -/
def rotr32 (x n : Nat) : Nat := w32 ((x >>> n) ||| (x <<< (32 - n)))

/-- SHA-2 `Ch` on 64-bit words. -/
def ch64 (x y z : Nat) : Nat := (x &&& y) ^^^ (not64 x &&& z)

/-- SHA-2 `Maj` on 64-bit words. -/
def maj64 (x y z : Nat) : Nat := (x &&& y) ^^^ (x &&& z) ^^^ (y &&& z)

/-- SHA-2 `Ch` on 32-bit words. -/
def ch32 (x y z : Nat) : Nat := (x &&& y) ^^^ (not32 x &&& z)

/-- SHA-2 `Maj` on 32-bit words. -/
def maj32 (x y z : Nat) : Nat := (x &&& y) ^^^ (x &&& z) ^^^ (y &&& z)

/-- SHA-2 message padding: append `0x80`, zeros, then the bit length in a
big-endian field of `lenFieldLen` bytes, reaching a multiple of
`blockLen`. -/
def shaPad (blockLen lenFieldLen : Nat) (msg : List Nat) : List Nat :=
  let L := msg.length
  let zeros := (blockLen - (L + 1 + lenFieldLen) % blockLen) % blockLen
  msg ++ [128] ++ List.replicate zeros 0 ++ beBytes lenFieldLen (8 * L)

/-- SHA-512 round constants. -/
def sha512K : List Nat := [
  4794697086780616226, 8158064640168781261, 13096744586834688815, 16840607885511220156,
  4131703408338449720, 6480981068601479193, 10538285296894168987, 12329834152419229976,
  15566598209576043074, 1334009975649890238, 2608012711638119052, 6128411473006802146,
  8268148722764581231, 9286055187155687089, 11230858885718282805, 13951009754708518548,
  16472876342353939154, 17275323862435702243, 1135362057144423861, 2597628984639134821,
  3308224258029322869, 5365058923640841347, 6679025012923562964, 8573033837759648693,
  10970295158949994411, 12119686244451234320, 12683024718118986047, 13788192230050041572,
  14330467153632333762, 15395433587784984357, 489312712824947311, 1452737877330783856,
  2861767655752347644, 3322285676063803686, 5560940570517711597, 5996557281743188959,
  7280758554555802590, 8532644243296465576, 9350256976987008742, 10552545826968843579,
  11727347734174303076, 12113106623233404929, 14000437183269869457, 14369950271660146224,
  15101387698204529176, 15463397548674623760, 17586052441742319658, 1182934255886127544,
  1847814050463011016, 2177327727835720531, 2830643537854262169, 3796741975233480872,
  4115178125766777443, 5681478168544905931, 6601373596472566643, 7507060721942968483,
  8399075790359081724, 8693463985226723168, 9568029438360202098, 10144078919501101548,
  10430055236837252648, 11840083180663258601, 13761210420658862357, 14299343276471374635,
  14566680578165727644, 15097957966210449927, 16922976911328602910, 17689382322260857208,
  500013540394364858, 748580250866718886, 1242879168328830382, 1977374033974150939,
  2944078676154940804, 3659926193048069267, 4368137639120453308, 4836135668995329356,
  5532061633213252278, 6448918945643986474, 6902733635092675308, 7801388544844847127]

/-- SHA-512 initial hash value. -/
def sha512H0 : List Nat := [
  7640891576956012808, 13503953896175478587, 4354685564936845355, 11912009170470909681,
  5840696475078001361, 11170449401992604703, 2270897969802886507, 6620516959819538809]

/-- SHA-256 round constants. -/
def sha256K : List Nat := [
  1116352408, 1899447441, 3049323471, 3921009573, 961987163, 1508970993, 2453635748, 2870763221,
  3624381080, 310598401, 607225278, 1426881987, 1925078388, 2162078206, 2614888103, 3248222580,
  3835390401, 4022224774, 264347078, 604807628, 770255983, 1249150122, 1555081692, 1996064986,
  2554220882, 2821834349, 2952996808, 3210313671, 3336571891, 3584528711, 113926993, 338241895,
  666307205, 773529912, 1294757372, 1396182291, 1695183700, 1986661051, 2177026350, 2456956037,
  2730485921, 2820302411, 3259730800, 3345764771, 3516065817, 3600352804, 4094571909, 275423344,
  430227734, 506948616, 659060556, 883997877, 958139571, 1322822218, 1537002063, 1747873779,
  1955562222, 2024104815, 2227730452, 2361852424, 2428436474, 2756734187, 3204031479, 3329325298]

/-- SHA-256 initial hash value. -/
def sha256H0 : List Nat := [
  1779033703, 3144134277, 1013904242, 2773480762, 1359893119, 2600822924, 528734635, 1541459225]

/-- SHA-512 message schedule: extend 16 words to 80. -/
def sha512Schedule (ws : List Nat) : List Nat :=
  (List.range 64).foldl
    (fun w _ =>
      let t := w.length
      w ++ [w64 ((rotr64 (w.getD (t - 2) 0) 19 ^^^ rotr64 (w.getD (t - 2) 0) 61 ^^^ (w.getD (t - 2) 0 >>> 6))
                 + w.getD (t - 7) 0
                 + (rotr64 (w.getD (t - 15) 0) 1 ^^^ rotr64 (w.getD (t - 15) 0) 8 ^^^ (w.getD (t - 15) 0 >>> 7))
                 + w.getD (t - 16) 0)])
    ws

/-- One SHA-512 compression round. -/
def sha512Round (st : List Nat) (kw : Nat × Nat) : List Nat :=
  match st with
  | [a, b, c, d, e, f, g, h] =>
    let t1 := w64 (h + (rotr64 e 14 ^^^ rotr64 e 18 ^^^ rotr64 e 41) + ch64 e f g + kw.1 + kw.2)
    let t2 := w64 ((rotr64 a 28 ^^^ rotr64 a 34 ^^^ rotr64 a 39) + maj64 a b c)
    [w64 (t1 + t2), a, b, c, w64 (d + t1), e, f, g]
  | other => other

/-- SHA-512 compression of one 128-byte block. -/
def sha512Block (h : List Nat) (block : List Nat) : List Nat :=
  let ws := sha512Schedule ((chunksOf 8 block).map beWord)
  let fin := (sha512K.zip ws).foldl sha512Round h
  (h.zip fin).map (fun p => w64 (p.1 + p.2))

/-- SHA-512 of a byte list (`crypto.createHash('sha512')`). -/
def sha512 (msg : List Nat) : List Nat :=
  (((chunksOf 128 (shaPad 128 16 msg)).foldl sha512Block sha512H0).map (beBytes 8)).flatten

/-- SHA-256 message schedule: extend 16 words to 64. -/
def sha256Schedule (ws : List Nat) : List Nat :=
  (List.range 48).foldl
    (fun w _ =>
      let t := w.length
      w ++ [w32 ((rotr32 (w.getD (t - 2) 0) 17 ^^^ rotr32 (w.getD (t - 2) 0) 19 ^^^ (w.getD (t - 2) 0 >>> 10))
                 + w.getD (t - 7) 0
                 + (rotr32 (w.getD (t - 15) 0) 7 ^^^ rotr32 (w.getD (t - 15) 0) 18 ^^^ (w.getD (t - 15) 0 >>> 3))
                 + w.getD (t - 16) 0)])
    ws

/-- One SHA-256 compression round. -/
def sha256Round (st : List Nat) (kw : Nat × Nat) : List Nat :=
  match st with
  | [a, b, c, d, e, f, g, h] =>
    let t1 := w32 (h + (rotr32 e 6 ^^^ rotr32 e 11 ^^^ rotr32 e 25) + ch32 e f g + kw.1 + kw.2)
    let t2 := w32 ((rotr32 a 2 ^^^ rotr32 a 13 ^^^ rotr32 a 22) + maj32 a b c)
    [w32 (t1 + t2), a, b, c, w32 (d + t1), e, f, g]
  | other => other

/-- SHA-256 compression of one 64-byte block. -/
def sha256Block (h : List Nat) (block : List Nat) : List Nat :=
  let ws := sha256Schedule ((chunksOf 4 block).map beWord)
  let fin := (sha256K.zip ws).foldl sha256Round h
  (h.zip fin).map (fun p => w32 (p.1 + p.2))

/-- SHA-256 of a byte list (`crypto.createHash('sha256')`). -/
def sha256 (msg : List Nat) : List Nat :=
  (((chunksOf 64 (shaPad 64 8 msg)).foldl sha256Block sha256H0).map (beBytes 4)).flatten

/-! ### AES-256-CBC decryption (`crypto.createDecipheriv('aes-256-cbc')`) -/

/-- Multiplication by `x` in GF(2^8) with the AES polynomial. -/
def xtime (x : Nat) : Nat :=
  let r := (x <<< 1) &&& 255
  if x &&& 128 = 128 then r ^^^ 27 else r

/-- GF(2^8) product, by shift-and-add over the bits of `b`. -/
def gmulGo : Nat → Nat → Nat → Nat
  | 0, _, _ => 0
  | fuel+1, a, b =>
    let acc := gmulGo fuel (xtime a) (b >>> 1)
    if b &&& 1 = 1 then acc ^^^ a else acc

/-- GF(2^8) product of two bytes. -/
def gmul (a b : Nat) : Nat := gmulGo 8 a b

/-- GF(2^8) power. -/
def gpow (x : Nat) : Nat → Nat
  | 0 => 1
  | n+1 => gmul x (gpow x n)

/-- GF(2^8) inverse (with `ginv 0 = 0`), as the 254th power. -/
def ginv (x : Nat) : Nat := gpow x 254

/-- Left rotation of a byte. -/
def rotl8 (x n : Nat) : Nat := ((x <<< n) ||| (x >>> (8 - n))) &&& 255

/-- The AES S-box: GF(2^8) inverse followed by the affine map. -/
def sbox (x : Nat) : Nat :=
  let i := ginv x
  i ^^^ rotl8 i 1 ^^^ rotl8 i 2 ^^^ rotl8 i 3 ^^^ rotl8 i 4 ^^^ 99

/-- The inverse AES S-box. -/
def invSbox (x : Nat) : Nat :=
  ((List.range 256).find? (fun y => sbox y == x)).getD 0

/-- Bytewise XOR of two equal-length byte lists. -/
def xorBytes (a b : List Nat) : List Nat :=
  (a.zip b).map (fun p => p.1 ^^^ p.2)

/-- AES key schedule `SubWord`. -/
def subWord (w : List Nat) : List Nat := w.map sbox

/-- AES key schedule `RotWord`. -/
def rotWordBytes (w : List Nat) : List Nat := w.drop 1 ++ w.take 1

/-- AES round constant bytes. -/
def rconByte : Nat → Nat
  | 1 => 1
  | 2 => 2
  | 3 => 4
  | 4 => 8
  | 5 => 16
  | 6 => 32
  | 7 => 64
  | _ => 0

/-- AES-256 key expansion to 60 four-byte words. -/
def aes256ExpandKey (key : List Nat) : List (List Nat) :=
  (List.range 52).foldl
    (fun w _ =>
      let i := w.length
      let t0 := w.getD (i - 1) []
      let temp :=
        if i % 8 = 0 then xorBytes (subWord (rotWordBytes t0)) [rconByte (i / 8), 0, 0, 0]
        else if i % 8 = 4 then subWord t0
        else t0
      w ++ [xorBytes (w.getD (i - 8) []) temp])
    (chunksOf 4 key)

/-- The fifteen 16-byte AES-256 round keys. -/
def aes256RoundKeys (key : List Nat) : List (List Nat) :=
  (chunksOf 4 (aes256ExpandKey key)).map List.flatten

/-- AES `AddRoundKey` on a flat 16-byte state. -/
def addRoundKey (stb rk : List Nat) : List Nat := xorBytes stb rk

/-- AES `InvShiftRows` on a flat 16-byte state (index `r + 4c`). -/
def invShiftRowsB (stb : List Nat) : List Nat :=
  (List.range 16).map (fun i =>
    stb.getD (i % 4 + 4 * ((i / 4 + 4 - i % 4) % 4)) 0)

/-- AES `InvSubBytes` on a flat 16-byte state. -/
def invSubBytesB (stb : List Nat) : List Nat := stb.map invSbox

/-- AES `InvMixColumns` on a flat 16-byte state. -/
def invMixColumnsB (stb : List Nat) : List Nat :=
  ((chunksOf 4 stb).map (fun col =>
    let a0 := col.getD 0 0
    let a1 := col.getD 1 0
    let a2 := col.getD 2 0
    let a3 := col.getD 3 0
    [gmul 14 a0 ^^^ gmul 11 a1 ^^^ gmul 13 a2 ^^^ gmul 9 a3,
     gmul 9 a0 ^^^ gmul 14 a1 ^^^ gmul 11 a2 ^^^ gmul 13 a3,
     gmul 13 a0 ^^^ gmul 9 a1 ^^^ gmul 14 a2 ^^^ gmul 11 a3,
     gmul 11 a0 ^^^ gmul 13 a1 ^^^ gmul 9 a2 ^^^ gmul 14 a3])).flatten

/-- AES-256 decryption of one 16-byte block. -/
def aes256DecryptBlock (key block : List Nat) : List Nat :=
  let rks := aes256RoundKeys key
  let st0 := addRoundKey block (rks.getD 14 [])
  let stMid := (List.range 13).foldl
    (fun stb i =>
      invMixColumnsB (addRoundKey (invSubBytesB (invShiftRowsB stb)) (rks.getD (13 - i) [])))
    st0
  addRoundKey (invSubBytesB (invShiftRowsB stMid)) (rks.getD 0 [])

/-- CBC-mode chaining for decryption. -/
def cbcDecryptGo (key : List Nat) : List Nat → List (List Nat) → List Nat
  | _, [] => []
  | prev, b :: rest => xorBytes (aes256DecryptBlock key b) prev ++ cbcDecryptGo key b rest

/-- AES-256-CBC decryption with auto-padding disabled, mirroring where the
Node cipher object throws: bad key length and bad IV length out of
`createDecipheriv`, a non-16-byte-multiple ciphertext out of `final()`. -/
def aesCbcDecryptNoPad (key iv ct : List Nat) : Except String (List Nat) :=
  if key.length ≠ 32 then .error "Invalid key length"
  else if iv.length ≠ 16 then .error "Invalid initialization vector"
  else if ct.length % 16 ≠ 0 then .error "wrong final block length"
  else .ok (cbcDecryptGo key iv (chunksOf 16 ct))

/-! ### secp256k1 (`secp256k1` npm package) -/

/-- The secp256k1 field prime. -/
def secpP : Nat :=
  115792089237316195423570985008687907853269984665640564039457584007908834671663

/-- The secp256k1 group order. -/
def secpN : Nat :=
  115792089237316195423570985008687907852837564279074904382605163141518161494337

/-- x-coordinate of the secp256k1 base point. -/
def secpGx : Nat :=
  55066263022277343669578718895168534326250603453777594175500187360389116729240

/-- y-coordinate of the secp256k1 base point. -/
def secpGy : Nat :=
  32670510020758816978083085130507043184471273380659243275938904335757337482424

/-- Modular exponentiation (fuel-based fast exponentiation). -/
def powModGo (b m : Nat) : Nat → Nat → Nat
  | 0, _ => 1 % m
  | fuel+1, e =>
    if e = 0 then 1 % m
    else
      let h := powModGo b m fuel (e / 2)
      if e % 2 = 0 then h * h % m else h * h % m * (b % m) % m

/-- Modular exponentiation. -/
def powMod (b e m : Nat) : Nat := powModGo b m e e

/-- Inverse modulo the field prime, by Fermat's little theorem. -/
def secpInv (a : Nat) : Nat := powMod a (secpP - 2) secpP

/-- Doubling on the secp256k1 curve (affine, `none` is the point at
infinity). -/
def ecDouble : Option (Nat × Nat) → Option (Nat × Nat)
  | none => none
  | some (x, y) =>
    if y % secpP = 0 then none
    else
      let l := 3 * x * x % secpP * secpInv (2 * y % secpP) % secpP
      let xr := (l * l + 2 * (secpP - x % secpP)) % secpP
      let yr := (l * (x % secpP + secpP - xr) + (secpP - y % secpP)) % secpP
      some (xr, yr)

/-- Addition on the secp256k1 curve. -/
def ecAdd : Option (Nat × Nat) → Option (Nat × Nat) → Option (Nat × Nat)
  | none, q => q
  | p, none => p
  | some (x1, y1), some (x2, y2) =>
    if x1 % secpP = x2 % secpP then
      if (y1 + y2) % secpP = 0 then none else ecDouble (some (x1, y1))
    else
      let l := (y2 + secpP - y1 % secpP) % secpP
               * secpInv ((x2 + secpP - x1 % secpP) % secpP) % secpP
      let xr := (l * l + (secpP - x1 % secpP) + (secpP - x2 % secpP)) % secpP
      let yr := (l * (x1 % secpP + secpP - xr) + (secpP - y1 % secpP)) % secpP
      some (xr, yr)

/-- Scalar multiplication by double-and-add (fuel-based). -/
def ecMulGo : Nat → Option (Nat × Nat) → Nat → Option (Nat × Nat)
  | 0, _, _ => none
  | fuel+1, p, k =>
    if k = 0 then none
    else
      let rest := ecMulGo fuel (ecDouble p) (k / 2)
      if k % 2 = 1 then ecAdd p rest else rest

/-- Scalar multiplication on secp256k1. -/
def ecMul (k : Nat) (p : Option (Nat × Nat)) : Option (Nat × Nat) := ecMulGo 257 p k

/-- Library `secp256k1.publicKeyCreate(privKey, false)`: the 65-byte uncompressed
public key (`0x04` prefix). -/
def publicKeyCreateBytes (k : Nat) : List Nat :=
  match ecMul k (some (secpGx, secpGy)) with
  | none => List.replicate 65 0
  | some (x, y) => 4 :: (beBytes 32 x ++ beBytes 32 y)

/-- Library `secp256k1.privateKeyVerify`: a 32-byte scalar strictly between 0 and
the group order. -/
def privateKeyVerifyBytes (k : List Nat) : Bool :=
  k.length == 32 && decide (0 < beWord k) && decide (beWord k < secpN)

/-! ### The client verification pipeline (one candidate trial) -/

/-- Client `deriveKeyFromPassword`: iterate SHA-512 over
`utf8(password) ++ hexBytes(salt)`; the derived key is bytes 0..31, the
IV bytes 32..47. -/
def deriveKeyFromPassword (password salt : String) (iterations : Nat) :
    List Nat × List Nat :=
  let data := (List.range iterations).foldl (fun d _ => sha512 d)
    (utf8Bytes password ++ hexToBytes salt)
  (data.take 32, (data.drop 32).take 16)

/-- Client `decryptMasterKey`: AES-256-CBC decrypt the hex-encoded
encrypted key, keep the first 32 bytes; any cipher error is `none`. -/
def decryptMasterKey (derivedKey iv : List Nat) (encryptedKey : String) :
    Option (List Nat) :=
  match aesCbcDecryptNoPad derivedKey iv (hexToBytes encryptedKey) with
  | .error _ => none
  | .ok d => some (d.take 32)

/-- Client `doublesha256`. -/
def doublesha256 (bs : List Nat) : List Nat := sha256 (sha256 bs)

/-- Client `decryptPrivateKey`: IV is the first 16 bytes of the double
SHA-256 of the public key; any cipher error is `none`. -/
def decryptPrivateKey (masterKey publicKeyBuf : List Nat)
    (encryptedPrivkey : String) : Option (List Nat) :=
  let iv := (doublesha256 publicKeyBuf).take 16
  match aesCbcDecryptNoPad masterKey iv (hexToBytes encryptedPrivkey) with
  | .error _ => none
  | .ok d => some (d.take 32)

/-- Client `validatePrivateKey`: secp256k1 scalar validity, then byte-exact
comparison of the generated uncompressed public key; any error is
`false`. -/
def validatePrivateKey (privateKey expectedPublicKey : List Nat) : Bool :=
  if privateKeyVerifyBytes privateKey then
    publicKeyCreateBytes (beWord privateKey) == expectedPublicKey
  else false

/-- One verification trial: the body of the client worker loop for a
single candidate passphrase. `true` is a match, `false` a non-match. -/
def singleTrial (password : String) (e : EncryptDesc) : Bool :=
  let publicKeyBuffer := hexToBytes e.uncompressed_public_key
  let dk := deriveKeyFromPassword password e.salt e.derivationiterations
  match decryptMasterKey dk.1 dk.2 e.encrypted_key with
  | none => false
  | some masterKey =>
    match decryptPrivateKey masterKey publicKeyBuffer e.encrypted_privkey with
    | none => false
    | some privateKey => validatePrivateKey privateKey publicKeyBuffer

/-! ### Candidate generation store (`db.js` `insertToDb`) -/

/-- A standalone candidate database (table plus the AUTOINCREMENT
counter). -/
structure Db where
  rows : List Row
  nextId : Nat
deriving DecidableEq

/-- An element of the JavaScript `passwords` array: a string, or a value
of any other type. -/
inductive JsEntry
  | str (s : String)
  | nonString
deriving DecidableEq

/-- The entries `insertToDb` actually inserts: strings with a non-empty
trim. -/
def validEntry : JsEntry → Bool
  | .str s => !(jsTrim s == "")
  | .nonString => false

/-- SQL `INSERT OR IGNORE INTO records (pwd, status) VALUES (?, 0)`: no-op if
the passphrase exists, else a fresh row; the flag reports whether a row
was inserted (`result.changes > 0`). -/
def insertOrIgnore (db : Db) (p : String) (t : Nat) : Db × Bool :=
  if db.rows.any (fun r => r.pwd == p) then (db, false)
  else
    ({ rows := db.rows ++ [{ id := db.nextId, pwd := p, status := Status.uncheck, updated_at := t }],
       nextId := db.nextId + 1 },
     true)

/-- Body of the `insertMany` loop of `db.js`: insert the entry if it is a
string with non-empty trim (trimmed), bumping the inserted count when a
row was actually added. -/
def insertStep (t : Nat) (acc : Db × Nat) (e : JsEntry) : Db × Nat :=
  match e with
  | .nonString => acc
  | .str s =>
    if jsTrim s == "" then acc
    else
      let r := insertOrIgnore acc.1 (jsTrim s) t
      (r.1, acc.2 + if r.2 then 1 else 0)

/-- The `insertMany` transaction of `db.js`: insert each entry that is a
string with non-empty trim (trimmed), counting the rows actually
inserted. -/
def insertMany (db : Db) (batch : List JsEntry) (t : Nat) : Db × Nat :=
  batch.foldl (insertStep t) (db, 0)

/-- Function `insertToDb` of `db.js`: process the entry list in consecutive batches
of `bsize`, summing the per-batch inserted counts. -/
def insertToDb (db : Db) (passwords : List JsEntry) (bsize : Nat) (t : Nat) :
    Db × Nat :=
  (chunksOf bsize passwords).foldl
    (fun acc batch =>
      let r := insertMany acc.1 batch t
      (r.1, acc.2 + r.2))
    (db, 0)

/-! ### The authentication preHandler hook -/

/-- HTTP method, as far as the hook distinguishes. -/
inductive Method
  | get
  | post
deriving DecidableEq

/-- Outcome of the preHandler hook. -/
inductive AuthResult
  | allowed
  | denied (code : Nat) (error : String)
deriving DecidableEq

/-- JavaScript `a || b` over optional header strings (empty string is
falsy). -/
def jsOrHeader (a b : Option String) : Option String :=
  match a with
  | some s => if s = "" then b else some s
  | none => b

/-- The preHandler hook of `server.js`: POST-only token check, accepting
the `authorization` header (with optional `Bearer ` prefix stripped) or
the `x-api-token` header. -/
def authCheck (apiToken : String) (method : Method)
    (authHeader xApiToken : Option String) : AuthResult :=
  match method with
  | .get => .allowed
  | .post =>
    if apiToken = "" then .denied 401 "API token required but not configured"
    else
      match jsOrHeader authHeader xApiToken with
      | none => .denied 401 "API token required"
      | some tok =>
        if tok = "" then .denied 401 "API token required"
        else
          let actualToken := if strStartsWith tok "Bearer " then strDropChars tok 7 else tok
          if actualToken ≠ apiToken then .denied 403 "Invalid API token" else .allowed

/-! ## Theorems

First a group of shared lemmas about the store operations, then one
theorem per specification claim (with witness or counterexample
theorems where required). -/

/-- Boolean/propositional reading of the sweeper predicate. -/
theorem staleChecking_eq_true_iff (now : Nat) (r : Row) :
    staleChecking now r = true ↔
      (r.status = Status.checking ∧ (r.updated_at : Int) < (now : Int) - 3600) := by
  simp [staleChecking]

/-- Claim C5. A call to `/work/reset-timeout` flips exactly the rows with
status CHECKING and `updated_at < now - 3600` to UNCHECKED (refreshing
`updated_at`), leaves every other row untouched, reports the number of
flipped rows, and afterwards no row is both CHECKING and more than
3600 seconds stale. -/
theorem workResetTimeout_reclaims_exactly_stale (cfg : Config) (st : ServerState) (t : Clock) :
    ((step cfg st Request.resetTimeout t).1.records.length = st.records.length) ∧
    (∀ i : Nat,
      ((step cfg st Request.resetTimeout t).1.records)[i]? =
        (st.records[i]?).map (fun r =>
          if r.status = Status.checking ∧ (r.updated_at : Int) < (t.now : Int) - 3600
          then { r with status := Status.uncheck, updated_at := t.now }
          else r)) ∧
    ((step cfg st Request.resetTimeout t).2 =
      Response.resetTimeoutOk
        ((st.records.filter (fun r =>
          r.status == Status.checking
            && decide ((r.updated_at : Int) < (t.now : Int) - 3600))).length)) ∧
    ((step cfg st Request.resetTimeout t).1.passwordFound = st.passwordFound) ∧
    (∀ r ∈ (step cfg st Request.resetTimeout t).1.records,
      ¬(r.status = Status.checking ∧ (r.updated_at : Int) < (t.now : Int) - 3600)) := by
  refine ⟨?_, ?_, ?_, ?_, ?_⟩
  · simp [step, handleResetTimeout, resetStale]
  · intro i
    simp only [step, handleResetTimeout, resetStale, List.getElem?_map]
    cases h : st.records[i]? with
    | none => rfl
    | some r =>
      simp only [Option.map_some']
      by_cases hs : r.status = Status.checking ∧ (r.updated_at : Int) < (t.now : Int) - 3600
      · rw [if_pos ((staleChecking_eq_true_iff t.now r).mpr hs), if_pos hs]
      · rw [if_neg (fun hb => hs ((staleChecking_eq_true_iff t.now r).mp hb)), if_neg hs]
  · simp only [step, handleResetTimeout, List.countP_eq_length_filter]
    rfl
  · rfl
  · intro r hr
    simp only [step, handleResetTimeout, resetStale, List.mem_map] at hr
    obtain ⟨r0, _, hmap⟩ := hr
    by_cases hs : staleChecking t.now r0 = true
    · rw [if_pos hs] at hmap
      intro hcontra
      rw [← hmap] at hcontra
      exact absurd hcontra.1 (by simp)
    · rw [if_neg hs] at hmap
      intro hcontra
      rw [← hmap] at hcontra
      exact hs ((staleChecking_eq_true_iff t.now r0).mpr hcontra)

/-- The lease selection is sorted by ascending id. -/
theorem leaseSelection_sorted (rs : List Row) (n : Nat) :
    List.Pairwise (fun a b : Row => a.id ≤ b.id) (leaseSelection rs n) := by
  haveI : IsTotal Row (fun a b => a.id ≤ b.id) := ⟨fun a b => Nat.le_total a.id b.id⟩
  haveI : IsTrans Row (fun a b => a.id ≤ b.id) := ⟨fun a b c => Nat.le_trans⟩
  exact List.Pairwise.sublist (List.take_sublist _ _)
    (List.sorted_insertionSort (fun a b : Row => a.id ≤ b.id) (uncheckedRows rs))

/-- The lease selection has `min n (number of UNCHECKED rows)` elements. -/
theorem leaseSelection_length (rs : List Row) (n : Nat) :
    (leaseSelection rs n).length = min n (uncheckedRows rs).length := by
  simp [leaseSelection, List.length_take, orderById,
    (List.perm_insertionSort (fun a b : Row => a.id ≤ b.id) (uncheckedRows rs)).length_eq]

/-- Every selected row is an UNCHECKED row of the store. -/
theorem leaseSelection_mem (rs : List Row) (n : Nat) (r : Row)
    (h : r ∈ leaseSelection rs n) : r ∈ rs ∧ r.status = Status.uncheck := by
  have h1 : r ∈ orderById (uncheckedRows rs) := (List.take_sublist _ _).mem h
  have h2 : r ∈ uncheckedRows rs :=
    (List.perm_insertionSort (fun a b : Row => a.id ≤ b.id) (uncheckedRows rs)).mem_iff.mp h1
  have h3 := List.mem_filter.mp h2
  exact ⟨h3.1, by simpa using h3.2⟩

/-- The lease selection is empty exactly when no UNCHECKED row exists
(for a positive limit). -/
theorem leaseSelection_eq_nil_iff (rs : List Row) (n : Nat) (hn : n ≠ 0) :
    leaseSelection rs n = [] ↔ uncheckedRows rs = [] := by
  rw [leaseSelection, List.take_eq_nil_iff]
  have hperm := List.perm_insertionSort (fun a b : Row => a.id ≤ b.id) (uncheckedRows rs)
  constructor
  · intro h
    rcases h with h | h
    · exact absurd h hn
    · have hnil : List.Perm ([] : List Row) (uncheckedRows rs) := h ▸ hperm
      exact hnil.symm.eq_nil
  · intro h
    right
    rw [orderById, h]
    rfl

/-- The batch size is at least 100. -/
theorem batchSize_toNat_pos (cpuCount : Int) : 100 ≤ (batchSize cpuCount).toNat := by
  have h : (100 : Int) ≤ batchSize cpuCount := le_max_left _ _
  omega

/-- Claim C1. A lease request with a non-empty clientId and the latch
clear selects up to `max(100, cpuCount*100)` UNCHECKED rows in ascending
id order (a non-positive `cpuCount` behaves as 1, batch 100), flips
exactly the selected rows to CHECKING refreshing `updated_at`, and
returns their passphrases in selection order with `success = true`;
with no UNCHECKED row it returns `success = false` and an empty password
list and changes nothing. -/
theorem workRequest_lease_contract (cfg : Config) (st : ServerState) (cpuCount : Int)
    (clientId : String) (t : Clock) (hcid : clientId ≠ "")
    (hlatch : st.passwordFound = false) :
    (cpuCount ≤ 0 → batchSize cpuCount = batchSize 1 ∧ (batchSize cpuCount).toNat = 100) ∧
    List.Pairwise (fun a b : Row => a.id ≤ b.id)
      (leaseSelection st.records (batchSize cpuCount).toNat) ∧
    (leaseSelection st.records (batchSize cpuCount).toNat).length =
      min (batchSize cpuCount).toNat (uncheckedRows st.records).length ∧
    (∀ r ∈ leaseSelection st.records (batchSize cpuCount).toNat,
      r ∈ st.records ∧ r.status = Status.uncheck) ∧
    (uncheckedRows st.records = [] →
      step cfg st (Request.workRequest cpuCount clientId) t =
        (st, Response.lease ⟨false, some "No more passwords to check", [], none, none,
          none, none⟩)) ∧
    (uncheckedRows st.records ≠ [] →
      (step cfg st (Request.workRequest cpuCount clientId) t).2 =
        Response.lease ⟨true, none,
          (leaseSelection st.records (batchSize cpuCount).toNat).map Row.pwd,
          some cfg.encrypt, none,
          some (clientId ++ "-" ++ toString t.nowMs),
          some (leaseSelection st.records (batchSize cpuCount).toNat).length⟩ ∧
      (step cfg st (Request.workRequest cpuCount clientId) t).1.records.length =
        st.records.length ∧
      (∀ i : Nat,
        ((step cfg st (Request.workRequest cpuCount clientId) t).1.records)[i]? =
          (st.records[i]?).map (fun r =>
            if r.id ∈ (leaseSelection st.records (batchSize cpuCount).toNat).map Row.id
            then { r with status := Status.checking, updated_at := t.now }
            else r)) ∧
      (step cfg st (Request.workRequest cpuCount clientId) t).1.passwordFound = false ∧
      (step cfg st (Request.workRequest cpuCount clientId) t).1.marker = st.marker) := by
  have hn : (batchSize cpuCount).toNat ≠ 0 := by
    have := batchSize_toNat_pos cpuCount
    omega
  refine ⟨?_, leaseSelection_sorted _ _, leaseSelection_length _ _,
    fun r hr => leaseSelection_mem _ _ r hr, ?_, ?_⟩
  · intro hc
    have h1 : batchSize cpuCount = 100 := by
      rw [batchSize, max_eq_left]
      nlinarith
    constructor
    · rw [h1]; rfl
    · rw [h1]; rfl
  · intro hempty
    have hsel : leaseSelection st.records (batchSize cpuCount).toNat = [] :=
      (leaseSelection_eq_nil_iff _ _ hn).mpr hempty
    simp only [step, handleWorkRequest, if_neg hcid, hlatch, Bool.false_eq_true,
      if_false, hsel, if_pos]
  · intro hne
    have hsel : leaseSelection st.records (batchSize cpuCount).toNat ≠ [] :=
      fun h => hne ((leaseSelection_eq_nil_iff _ _ hn).mp h)
    have hstep : step cfg st (Request.workRequest cpuCount clientId) t =
        ({ st with records := setChecking t.now ((leaseSelection st.records (batchSize cpuCount).toNat).map Row.id) st.records },
         Response.lease ⟨true, none,
           (leaseSelection st.records (batchSize cpuCount).toNat).map Row.pwd,
           some cfg.encrypt, none,
           some (clientId ++ "-" ++ toString t.nowMs),
           some (leaseSelection st.records (batchSize cpuCount).toNat).length⟩) := by
      simp only [step, handleWorkRequest, if_neg hcid, hlatch, Bool.false_eq_true,
        if_false, if_neg hsel]
    refine ⟨by rw [hstep], by rw [hstep]; simp [setChecking], ?_,
      by rw [hstep]; exact hlatch, by rw [hstep]⟩
    intro i
    rw [hstep]
    simp [setChecking, List.getElem?_map]

/-- Witness for claim C1: a three-row store (two UNCHECKED rows listed
out of order, one CHECKED) leases exactly the two UNCHECKED passphrases
in ascending id order. -/
theorem workRequest_lease_contract_witness :
    (step ⟨"tok", "lucky.db", ⟨"k", "p", "u", "s", 1⟩⟩
        ⟨[⟨2, "b", Status.uncheck, 0⟩, ⟨1, "a", Status.uncheck, 0⟩,
          ⟨3, "c", Status.checked, 0⟩], false, []⟩
        (Request.workRequest 1 "w") ⟨50, 99, ""⟩).2 =
      Response.lease ⟨true, none, ["a", "b"], some ⟨"k", "p", "u", "s", 1⟩, none,
        some ("w" ++ "-" ++ toString (99 : Nat)), some 2⟩ := by
  rw [((workRequest_lease_contract ⟨"tok", "lucky.db", ⟨"k", "p", "u", "s", 1⟩⟩
      ⟨[⟨2, "b", Status.uncheck, 0⟩, ⟨1, "a", Status.uncheck, 0⟩,
        ⟨3, "c", Status.checked, 0⟩], false, []⟩ 1 "w" ⟨50, 99, ""⟩
      (by decide) rfl).2.2.2.2.2 (by decide)).1]
  rfl

/-- A lease request never changes the latch. -/
theorem workRequest_passwordFound_eq (cfg : Config) (st : ServerState) (c : Int)
    (i : String) (t : Clock) :
    (step cfg st (Request.workRequest c i) t).1.passwordFound = st.passwordFound := by
  by_cases h1 : i = ""
  · simp [step, handleWorkRequest, h1]
  by_cases h2 : st.passwordFound = true
  · simp [step, handleWorkRequest, h1, h2]
  by_cases h3 : leaseSelection st.records (batchSize c).toNat = []
  · simp [step, handleWorkRequest, h1, h2, h3]
  · simp [step, handleWorkRequest, h1, h2, h3]

/-- Claim C9. Two lease requests processed one after the other (the
better-sqlite3 statements of one handler run without interleaving, so
concurrent requests serialize) reserve disjoint id sets. -/
theorem workRequest_concurrent_reservations_disjoint (cfg : Config) (st : ServerState)
    (c1 : Int) (id1 : String) (t1 : Clock) (c2 : Int) (id2 : String) :
    List.Disjoint (reservedIds st c1 id1)
      (reservedIds (step cfg st (Request.workRequest c1 id1) t1).1 c2 id2) := by
  intro x hx1 hx2
  by_cases hid1 : id1 = ""
  · rw [reservedIds, if_pos hid1] at hx1
    exact absurd hx1 (List.not_mem_nil x)
  by_cases hlatch : st.passwordFound = true
  · rw [reservedIds, if_neg hid1, if_pos hlatch] at hx1
    exact absurd hx1 (List.not_mem_nil x)
  rw [reservedIds, if_neg hid1, if_neg hlatch] at hx1
  by_cases hsel1 : leaseSelection st.records (batchSize c1).toNat = []
  · rw [hsel1] at hx1
    exact absurd hx1 (List.not_mem_nil x)
  have hrec : (step cfg st (Request.workRequest c1 id1) t1).1.records =
      setChecking t1.now ((leaseSelection st.records (batchSize c1).toNat).map Row.id)
        st.records := by
    simp [step, handleWorkRequest, hid1, hlatch, hsel1]
  have hlatch2 : ¬((step cfg st (Request.workRequest c1 id1) t1).1.passwordFound = true) := by
    rw [workRequest_passwordFound_eq]
    exact hlatch
  by_cases hid2 : id2 = ""
  · rw [reservedIds, if_pos hid2] at hx2
    exact absurd hx2 (List.not_mem_nil x)
  rw [reservedIds, if_neg hid2, if_neg hlatch2] at hx2
  obtain ⟨r, hrsel, hrid⟩ := List.mem_map.mp hx2
  have hmem := (leaseSelection_mem _ _ r hrsel).1
  have hstat := (leaseSelection_mem _ _ r hrsel).2
  rw [hrec, setChecking] at hmem
  obtain ⟨r0, _, hmap⟩ := List.mem_map.mp hmem
  by_cases hin : r0.id ∈ (leaseSelection st.records (batchSize c1).toNat).map Row.id
  · rw [if_pos hin] at hmap
    rw [← hmap] at hstat
    exact absurd hstat (by simp)
  · rw [if_neg hin] at hmap
    rw [hmap, hrid] at hin
    exact hin hx1

/-- Witness for claim C9: 101 UNCHECKED rows; the first lease reserves
ids 1..100, an immediately following lease reserves id 101; both
reservations are non-empty and disjoint. -/
theorem workRequest_concurrent_reservations_disjoint_witness :
    (reservedIds ⟨(List.range 101).map (fun i => ⟨i + 1, "", Status.uncheck, 0⟩), false, []⟩ 1 "w1" ≠ []) ∧
    (reservedIds (step ⟨"tok", "lucky.db", ⟨"", "", "", "", 0⟩⟩ ⟨(List.range 101).map (fun i => ⟨i + 1, "", Status.uncheck, 0⟩), false, []⟩ (Request.workRequest 1 "w1") ⟨7, 8, ""⟩).1 1 "w2" ≠ []) ∧
    List.Disjoint
      (reservedIds ⟨(List.range 101).map (fun i => ⟨i + 1, "", Status.uncheck, 0⟩), false, []⟩ 1 "w1")
      (reservedIds (step ⟨"tok", "lucky.db", ⟨"", "", "", "", 0⟩⟩ ⟨(List.range 101).map (fun i => ⟨i + 1, "", Status.uncheck, 0⟩), false, []⟩ (Request.workRequest 1 "w1") ⟨7, 8, ""⟩).1 1 "w2") :=
  ⟨by decide, by decide,
   workRequest_concurrent_reservations_disjoint
     ⟨"tok", "lucky.db", ⟨"", "", "", "", 0⟩⟩
     ⟨(List.range 101).map (fun i => ⟨i + 1, "", Status.uncheck, 0⟩), false, []⟩
     1 "w1" ⟨7, 8, ""⟩ 1 "w2"⟩

/-- Applying one `/work/result` effect never clears the latch. -/
theorem applyEvent_latch_mono (n : Nat) (st : ServerState) (e : Event)
    (h : st.passwordFound = true) : (applyEvent n st e).passwordFound = true := by
  cases e <;> simp [applyEvent, h]

/-- Folding `/work/result` effects never clears the latch. -/
theorem foldl_applyEvent_latch (n : Nat) (evs : List Event) (st : ServerState)
    (h : st.passwordFound = true) :
    (evs.foldl (applyEvent n) st).passwordFound = true := by
  induction evs generalizing st with
  | nil => exact h
  | cons e rest ih => exact ih _ (applyEvent_latch_mono n st e h)

/-- No request clears the latch, except a reset on the sample store. -/
theorem step_preserves_latch (cfg : Config) (st : ServerState) (req : Request) (t : Clock)
    (h : ¬(req = Request.resetFound ∧ cfg.dbName = "lucky-sample.db"))
    (hl : st.passwordFound = true) :
    (step cfg st req t).1.passwordFound = true := by
  cases req with
  | workRequest c i => rw [workRequest_passwordFound_eq]; exact hl
  | workResult b s f p c =>
    exact foldl_applyEvent_latch t.now _ st hl
  | workFound p c =>
    by_cases hb : p = "" ∨ c = ""
    · simp [step, handleWorkFound, hb, hl]
    · simp [step, handleWorkFound, hb]
  | resetFound =>
    have hdb : cfg.dbName ≠ "lucky-sample.db" := fun hdb => h ⟨rfl, hdb⟩
    simp [step, handleResetFound, hdb, hl]
  | resetTimeout => simp [step, handleResetTimeout, hl]

/-- Claim C2. Once the latch is set, a lease request with a non-empty
clientId is refused with `success = false`, `passwordFound = true` and
an empty password list, changing no state; and along any request trace
containing no sample-store reset the latch stays set and every lease
request is refused the same way. -/
theorem latch_refuses_all_leases (cfg : Config) :
    (∀ (st : ServerState) (c : Int) (cid : String) (t : Clock), cid ≠ "" →
      st.passwordFound = true →
      step cfg st (Request.workRequest c cid) t =
        (st, Response.lease ⟨false, some "Password already found, no more work needed",
          [], none, some true, none, none⟩)) ∧
    (∀ (st : ServerState) (trace : List (Request × Clock)), st.passwordFound = true →
      (∀ rt ∈ trace, ¬(Prod.fst rt = Request.resetFound ∧ cfg.dbName = "lucky-sample.db")) →
      (run cfg st trace).1.passwordFound = true ∧
      (∀ (i : Nat) (c : Int) (cid : String) (t : Clock), i < trace.length →
        trace.getD i (Request.resetTimeout, ⟨0, 0, ""⟩) = (Request.workRequest c cid, t) →
        cid ≠ "" →
        (run cfg st trace).2.getD i Response.serverError =
          Response.lease ⟨false, some "Password already found, no more work needed",
            [], none, some true, none, none⟩)) := by
  have hsingle : ∀ (st : ServerState) (c : Int) (cid : String) (t : Clock), cid ≠ "" →
      st.passwordFound = true →
      step cfg st (Request.workRequest c cid) t =
        (st, Response.lease ⟨false, some "Password already found, no more work needed",
          [], none, some true, none, none⟩) := by
    intro st c cid t hcid hl
    simp [step, handleWorkRequest, hcid, hl]
  refine ⟨hsingle, ?_⟩
  intro st trace
  induction trace generalizing st with
  | nil =>
    intro hl _
    exact ⟨hl, fun i c cid t hi => absurd hi (by simp)⟩
  | cons rt rest ih =>
    intro hl htrace
    have hl1 : (step cfg st rt.1 rt.2).1.passwordFound = true :=
      step_preserves_latch cfg st rt.1 rt.2 (htrace rt (by simp)) hl
    have ihr := ih ((step cfg st rt.1 rt.2).1) hl1
      (fun p hp => htrace p (List.mem_cons_of_mem rt hp))
    constructor
    · show (run cfg (step cfg st rt.1 rt.2).1 rest).1.passwordFound = true
      exact ihr.1
    · intro i c cid t hi hget hcid
      cases i with
      | zero =>
        have hrt : rt = (Request.workRequest c cid, t) := by simpa using hget
        show ((step cfg st rt.1 rt.2).2 ::
          (run cfg (step cfg st rt.1 rt.2).1 rest).2).getD 0 Response.serverError = _
        rw [List.getD_cons_zero, hrt]
        rw [hsingle st c cid t hcid hl]
      | succ j =>
        show ((step cfg st rt.1 rt.2).2 ::
          (run cfg (step cfg st rt.1 rt.2).1 rest).2).getD (j + 1) Response.serverError = _
        rw [List.getD_cons_succ]
        exact ihr.2 j c cid t (by simpa using hi) (by simpa using hget) hcid

/-- Witness for claim C2: with the latch set, a three-request trace
(lease, failure report, lease) answers the final lease with the stop
response. -/
theorem latch_refuses_all_leases_witness :
    (run ⟨"tok", "lucky.db", ⟨"", "", "", "", 0⟩⟩
        ⟨[⟨1, "a", Status.uncheck, 0⟩], true, ["stanza"]⟩
        [(Request.workRequest 1 "w", ⟨1, 1, ""⟩),
         (Request.workResult "b" false none ["a"] "w", ⟨2, 2, ""⟩),
         (Request.workRequest 4 "w", ⟨3, 3, ""⟩)]).2.getD 2 Response.serverError =
      Response.lease ⟨false, some "Password already found, no more work needed",
        [], none, some true, none, none⟩ :=
  ((latch_refuses_all_leases ⟨"tok", "lucky.db", ⟨"", "", "", "", 0⟩⟩).2
    ⟨[⟨1, "a", Status.uncheck, 0⟩], true, ["stanza"]⟩
    [(Request.workRequest 1 "w", ⟨1, 1, ""⟩),
     (Request.workResult "b" false none ["a"] "w", ⟨2, 2, ""⟩),
     (Request.workRequest 4 "w", ⟨3, 3, ""⟩)] rfl (by decide)).2
    2 4 "w" ⟨3, 3, ""⟩ (by decide) (by decide) (by decide)

/-- The failure-path transaction, re-expressed as one pointwise map: a
row is flipped to CHECKED exactly when its passphrase appears in the
reported list. -/
theorem markCheckedRun_eq_map (now : Nat) (rs : List Row) (pwds : List String) :
    markCheckedRun now rs pwds = rs.map (fun r =>
      if r.pwd ∈ pwds then { r with status := Status.checked, updated_at := now } else r) := by
  induction pwds generalizing rs with
  | nil => simp [markCheckedRun]
  | cons p ps ih =>
    have h1 : markCheckedRun now rs (p :: ps) =
        markCheckedRun now (rs.map (fun r =>
          if r.pwd = p then { r with status := Status.checked, updated_at := now } else r)) ps :=
      rfl
    rw [h1, ih, List.map_map]
    refine List.map_congr_left ?_
    intro r _
    by_cases hp : r.pwd = p
    · by_cases hin : r.pwd ∈ ps <;> simp [Function.comp, hp, hin, List.mem_cons]
    · simp [Function.comp, hp, List.mem_cons]

/-- A failure report (`success = false`) with valid ids reduces to the
CHECKED-marking transaction plus the fixed acknowledgment. -/
theorem workResult_failure_step (cfg : Config) (st : ServerState) (b : String)
    (fp : Option String) (ps : List String) (cid : String) (t : Clock)
    (hb : b ≠ "") (hc : cid ≠ "") :
    step cfg st (Request.workResult b false fp ps cid) t =
      ({ st with records := markCheckedRun t.now st.records ps },
       Response.result ⟨true, some "Results recorded", none, none⟩) := by
  by_cases hps : ps = []
  · subst hps
    simp [step, handleWorkResult, workResultEvents, hb, hc, applyEvent, eventsResponse,
      markCheckedRun]
  · simp [step, handleWorkResult, workResultEvents, hb, hc, hps, applyEvent, eventsResponse]

/-- Claim C8 counterexample. Submitting the same failure report twice at
different timestamps is not a no-op: the second call refreshes the
`updated_at` of the listed row, so the row set after the second call
differs from the row set after the first. -/
theorem workResult_failure_repeat_counterexample :
    (step ⟨"tok", "lucky.db", ⟨"", "", "", "", 0⟩⟩
        (step ⟨"tok", "lucky.db", ⟨"", "", "", "", 0⟩⟩
          ⟨[⟨1, "a", Status.uncheck, 0⟩], false, []⟩
          (Request.workResult "b" false none ["a"] "w") ⟨10, 0, ""⟩).1
        (Request.workResult "b" false none ["a"] "w") ⟨20, 0, ""⟩).1 ≠
      (step ⟨"tok", "lucky.db", ⟨"", "", "", "", 0⟩⟩
        ⟨[⟨1, "a", Status.uncheck, 0⟩], false, []⟩
        (Request.workResult "b" false none ["a"] "w") ⟨10, 0, ""⟩).1 := by
  decide

/-- Claim C8 as amended. Submitting the same failure report twice marks
the listed passphrases CHECKED exactly once in the status sense: the
second call changes no row's id, pwd or status (and is a full no-op when
it observes the same clock second); it does refresh `updated_at` of the
listed rows; passphrases with no matching row are ignored by every
call. -/
theorem workResult_failure_idempotent_on_status (cfg : Config) (st : ServerState)
    (b : String) (fp : Option String) (ps : List String) (cid : String)
    (t1 t2 : Clock) (hb : b ≠ "") (hc : cid ≠ "") :
    ((step cfg (step cfg st (Request.workResult b false fp ps cid) t1).1
        (Request.workResult b false fp ps cid) t2).1.records.map
          (fun r => (r.id, r.pwd, r.status)) =
      (step cfg st (Request.workResult b false fp ps cid) t1).1.records.map
        (fun r => (r.id, r.pwd, r.status))) ∧
    (t2.now = t1.now →
      (step cfg (step cfg st (Request.workResult b false fp ps cid) t1).1
        (Request.workResult b false fp ps cid) t2).1 =
      (step cfg st (Request.workResult b false fp ps cid) t1).1) ∧
    (∀ (rs : List Row) (now : Nat),
      markCheckedRun now rs ps =
        markCheckedRun now rs (ps.filter (fun p => rs.any (fun r => r.pwd == p)))) := by
  have hfilter : ∀ (rs : List Row) (now : Nat),
      markCheckedRun now rs ps =
        markCheckedRun now rs (ps.filter (fun p => rs.any (fun r => r.pwd == p))) := by
    intro rs now
    rw [markCheckedRun_eq_map, markCheckedRun_eq_map]
    refine List.map_congr_left ?_
    intro r hr
    by_cases hin : r.pwd ∈ ps
    · rw [if_pos hin, if_pos ?_]
      rw [List.mem_filter]
      exact ⟨hin, List.any_eq_true.mpr ⟨r, hr, by simp⟩⟩
    · rw [if_neg hin, if_neg ?_]
      intro hmem
      exact hin (List.mem_filter.mp hmem).1
  rw [workResult_failure_step cfg st b fp ps cid t1 hb hc,
    workResult_failure_step cfg _ b fp ps cid t2 hb hc]
  refine ⟨?_, ?_, hfilter⟩
  · simp only [markCheckedRun_eq_map, List.map_map]
    refine List.map_congr_left ?_
    intro r _
    by_cases hin : r.pwd ∈ ps <;> simp [Function.comp, hin]
  · intro hnow
    rw [hnow]
    have hrec : markCheckedRun t1.now (markCheckedRun t1.now st.records ps) ps =
        markCheckedRun t1.now st.records ps := by
      simp only [markCheckedRun_eq_map, List.map_map]
      refine List.map_congr_left ?_
      intro r _
      by_cases hin : r.pwd ∈ ps <;> simp [Function.comp, hin]
    simp only [hrec]

/-- Witness for claim C8 as amended: the concrete double report keeps id,
pwd and status pointwise identical. -/
theorem workResult_failure_idempotent_on_status_witness :
    (step ⟨"tok", "lucky.db", ⟨"", "", "", "", 0⟩⟩
        (step ⟨"tok", "lucky.db", ⟨"", "", "", "", 0⟩⟩
          ⟨[⟨1, "a", Status.uncheck, 0⟩, ⟨2, "b", Status.uncheck, 0⟩], false, []⟩
          (Request.workResult "b" false none ["a", "zz"] "w") ⟨10, 0, ""⟩).1
        (Request.workResult "b" false none ["a", "zz"] "w") ⟨20, 0, ""⟩).1.records.map
          (fun r => (r.id, r.pwd, r.status)) =
      (step ⟨"tok", "lucky.db", ⟨"", "", "", "", 0⟩⟩
        ⟨[⟨1, "a", Status.uncheck, 0⟩, ⟨2, "b", Status.uncheck, 0⟩], false, []⟩
        (Request.workResult "b" false none ["a", "zz"] "w") ⟨10, 0, ""⟩).1.records.map
          (fun r => (r.id, r.pwd, r.status)) :=
  (workResult_failure_idempotent_on_status ⟨"tok", "lucky.db", ⟨"", "", "", "", 0⟩⟩
    ⟨[⟨1, "a", Status.uncheck, 0⟩, ⟨2, "b", Status.uncheck, 0⟩], false, []⟩
    "b" none ["a", "zz"] "w" ⟨10, 0, ""⟩ ⟨20, 0, ""⟩
    (by decide) (by decide)).1

/-- Claim C3 counterexample. A result submission with `success = true`
but no `foundPassword` does not set the latch, appends nothing to the
marker, and is acknowledged as an ordinary recorded result without
`shouldStop` or `passwordFound` — the success handling requires a truthy
`foundPassword` as well. -/
theorem workResult_success_needs_foundPassword_counterexample :
    (step ⟨"tok", "lucky.db", ⟨"", "", "", "", 0⟩⟩ ⟨[], false, []⟩
        (Request.workResult "b" true none [] "w") ⟨1, 1, "iso"⟩).1.passwordFound = false ∧
    (step ⟨"tok", "lucky.db", ⟨"", "", "", "", 0⟩⟩ ⟨[], false, []⟩
        (Request.workResult "b" true none [] "w") ⟨1, 1, "iso"⟩).1.marker = [] ∧
    (step ⟨"tok", "lucky.db", ⟨"", "", "", "", 0⟩⟩ ⟨[], false, []⟩
        (Request.workResult "b" true none [] "w") ⟨1, 1, "iso"⟩).2 =
      Response.result ⟨true, some "Results recorded", none, none⟩ := by
  decide

/-- Claim C3 as amended. For a result submission with non-empty batchId
and clientId, `success = true` and a non-empty `foundPassword`, the
handler's effect trace sets the in-memory latch and appends the marker
stanza strictly before producing the acknowledgment, and the
acknowledgment has `success = true`, `shouldStop = true` and
`passwordFound = true`. -/
theorem workResult_success_sets_latch_before_ack (cfg : Config) (st : ServerState)
    (b : String) (fp : Option String) (p : String) (ps : List String) (cid : String)
    (t : Clock) (hb : b ≠ "") (hc : cid ≠ "") (hfp : fp = some p) (hp : p ≠ "") :
    workResultEvents b true fp ps cid t.isoTime =
      [Event.setLatch,
       Event.appendMarker (foundStanza p cid t.isoTime),
       Event.respond (Response.result ⟨true, some "Password found! All work stopped!",
         some true, some true⟩)] ∧
    (step cfg st (Request.workResult b true fp ps cid) t).1 =
      { st with passwordFound := true,
                marker := st.marker ++ [foundStanza p cid t.isoTime] } ∧
    (step cfg st (Request.workResult b true fp ps cid) t).2 =
      Response.result ⟨true, some "Password found! All work stopped!",
        some true, some true⟩ := by
  subst hfp
  have hev : workResultEvents b true (some p) ps cid t.isoTime =
      [Event.setLatch,
       Event.appendMarker (foundStanza p cid t.isoTime),
       Event.respond (Response.result ⟨true, some "Password found! All work stopped!",
         some true, some true⟩)] := by
    simp [workResultEvents, hb, hc, optTruthy, hp]
  refine ⟨hev, ?_, ?_⟩
  · show (handleWorkResult st b true (some p) ps cid t).1 = _
    rw [handleWorkResult, hev]
    simp [applyEvent]
  · show (handleWorkResult st b true (some p) ps cid t).2 = _
    rw [handleWorkResult, hev]
    rfl

/-- Witness for claim C3 as amended, at a concrete submission. -/
theorem workResult_success_sets_latch_before_ack_witness :
    (step ⟨"tok", "lucky.db", ⟨"", "", "", "", 0⟩⟩
        ⟨[⟨1, "target", Status.checking, 3⟩], false, []⟩
        (Request.workResult "w-5" true (some "target") ["target"] "w") ⟨6, 7, "iso"⟩).1 =
      { records := [⟨1, "target", Status.checking, 3⟩], passwordFound := true,
        marker := [foundStanza "target" "w" "iso"] } :=
  (workResult_success_sets_latch_before_ack ⟨"tok", "lucky.db", ⟨"", "", "", "", 0⟩⟩
    ⟨[⟨1, "target", Status.checking, 3⟩], false, []⟩
    "w-5" (some "target") "target" ["target"] "w" ⟨6, 7, "iso"⟩
    (by decide) (by decide) rfl (by decide)).2.1

/-- Indexing a mapped row list below its length. -/
theorem records_getD_map (φ : Row → Row) (rs : List Row) (i : Nat)
    (h : i < rs.length) :
    (rs.map φ).getD i ⟨0, "", Status.uncheck, 0⟩ =
      φ (rs.getD i ⟨0, "", Status.uncheck, 0⟩) := by
  rw [List.getD_eq_getElem _ _ (by simpa using h), List.getD_eq_getElem _ _ h,
    List.getElem_map]

/-- Claim C4 counterexample. A failure report listing the passphrase of a
row that is still UNCHECKED flips that row straight to CHECKED: the
`UPDATE ... WHERE pwd = ?` of the result handler has no status guard, so
UNCHECKED→CHECKED is a reachable transition, contrary to the §4.2
diagram. -/
theorem statusMachine_uncheckedToChecked_counterexample :
    (step ⟨"tok", "lucky.db", ⟨"", "", "", "", 0⟩⟩
        ⟨[⟨1, "a", Status.uncheck, 5⟩], false, []⟩
        (Request.workResult "b" false none ["a"] "w") ⟨9, 9, ""⟩).1.records =
      [⟨1, "a", Status.checked, 9⟩] := by
  decide

/-- Claim C4 as amended. With unique row ids, every request preserves the
row count and each row's id and passphrase, and the only status changes
are: UNCHECKED→CHECKING via a lease request, anything→CHECKED for a row
whose passphrase appears in a result submission's reported list (the
failure path has no status guard, so UNCHECKED→CHECKED is included),
CHECKING→UNCHECKED via stale reclamation, and anything→UNCHECKED via the
sample-store reset. -/
theorem step_status_machine (cfg : Config) (st : ServerState) (req : Request) (t : Clock)
    (hids : (st.records.map Row.id).Nodup) :
    (step cfg st req t).1.records.length = st.records.length ∧
    (∀ i : Nat, i < st.records.length →
      ((step cfg st req t).1.records.getD i ⟨0, "", Status.uncheck, 0⟩).id =
        (st.records.getD i ⟨0, "", Status.uncheck, 0⟩).id ∧
      ((step cfg st req t).1.records.getD i ⟨0, "", Status.uncheck, 0⟩).pwd =
        (st.records.getD i ⟨0, "", Status.uncheck, 0⟩).pwd ∧
      (((step cfg st req t).1.records.getD i ⟨0, "", Status.uncheck, 0⟩).status =
          (st.records.getD i ⟨0, "", Status.uncheck, 0⟩).status ∨
       (∃ c cid, req = Request.workRequest c cid ∧
          (st.records.getD i ⟨0, "", Status.uncheck, 0⟩).status = Status.uncheck ∧
          ((step cfg st req t).1.records.getD i ⟨0, "", Status.uncheck, 0⟩).status =
            Status.checking) ∨
       (∃ b s fp ps cid, req = Request.workResult b s fp ps cid ∧
          (st.records.getD i ⟨0, "", Status.uncheck, 0⟩).pwd ∈ ps ∧
          ((step cfg st req t).1.records.getD i ⟨0, "", Status.uncheck, 0⟩).status =
            Status.checked) ∨
       (req = Request.resetTimeout ∧
          (st.records.getD i ⟨0, "", Status.uncheck, 0⟩).status = Status.checking ∧
          ((step cfg st req t).1.records.getD i ⟨0, "", Status.uncheck, 0⟩).status =
            Status.uncheck) ∨
       (req = Request.resetFound ∧
          ((step cfg st req t).1.records.getD i ⟨0, "", Status.uncheck, 0⟩).status =
            Status.uncheck))) := by
  cases req with
  | workRequest c cid =>
    by_cases h1 : cid = ""
    · have hunch : (step cfg st (Request.workRequest c cid) t).1.records = st.records := by
        simp [step, handleWorkRequest, h1]
      rw [hunch]
      exact ⟨rfl, fun i _ => ⟨rfl, rfl, Or.inl rfl⟩⟩
    by_cases h2 : st.passwordFound = true
    · have hunch : (step cfg st (Request.workRequest c cid) t).1.records = st.records := by
        simp [step, handleWorkRequest, h1, h2]
      rw [hunch]
      exact ⟨rfl, fun i _ => ⟨rfl, rfl, Or.inl rfl⟩⟩
    by_cases h3 : leaseSelection st.records (batchSize c).toNat = []
    · have hunch : (step cfg st (Request.workRequest c cid) t).1.records = st.records := by
        simp [step, handleWorkRequest, h1, h2, h3]
      rw [hunch]
      exact ⟨rfl, fun i _ => ⟨rfl, rfl, Or.inl rfl⟩⟩
    have hrec : (step cfg st (Request.workRequest c cid) t).1.records =
        setChecking t.now ((leaseSelection st.records (batchSize c).toNat).map Row.id)
          st.records := by
      simp [step, handleWorkRequest, h1, h2, h3]
    constructor
    · rw [hrec]
      simp [setChecking]
    · intro i hi
      rw [hrec, setChecking,
        records_getD_map _ _ i hi]
      by_cases hin : (st.records.getD i ⟨0, "", Status.uncheck, 0⟩).id ∈
          (leaseSelection st.records (batchSize c).toNat).map Row.id
      · rw [if_pos hin]
        refine ⟨rfl, rfl, Or.inr (Or.inl ⟨c, cid, rfl, ?_, rfl⟩)⟩
        obtain ⟨r0, hr0sel, hr0id⟩ := List.mem_map.mp hin
        have hr0 := leaseSelection_mem _ _ r0 hr0sel
        have hrmem : st.records.getD i ⟨0, "", Status.uncheck, 0⟩ ∈ st.records := by
          rw [List.getD_eq_getElem _ _ hi]
          exact List.getElem_mem hi
        have heq : r0 = st.records.getD i ⟨0, "", Status.uncheck, 0⟩ :=
          List.inj_on_of_nodup_map hids hr0.1 hrmem hr0id
        rw [← heq]
        exact hr0.2
      · rw [if_neg hin]
        exact ⟨rfl, rfl, Or.inl rfl⟩
  | workResult b s fp ps cid =>
    by_cases h1 : b = "" ∨ cid = ""
    · have hunch : (step cfg st (Request.workResult b s fp ps cid) t).1.records = st.records := by
        simp [step, handleWorkResult, workResultEvents, h1, applyEvent, eventsResponse]
      rw [hunch]
      exact ⟨rfl, fun i _ => ⟨rfl, rfl, Or.inl rfl⟩⟩
    by_cases h2 : (s = true) ∧ optTruthy fp = true
    · have hunch : (step cfg st (Request.workResult b s fp ps cid) t).1.records = st.records := by
        simp [step, handleWorkResult, workResultEvents, h1, h2.1, h2.2, applyEvent,
          eventsResponse]
      rw [hunch]
      exact ⟨rfl, fun i _ => ⟨rfl, rfl, Or.inl rfl⟩⟩
    have hrec : (step cfg st (Request.workResult b s fp ps cid) t).1.records =
        markCheckedRun t.now st.records ps := by
      by_cases hps : ps = []
      · subst hps
        simp only [step, handleWorkResult, workResultEvents, if_neg h1, markCheckedRun]
        rw [if_neg h2]
        simp [applyEvent]
      · simp only [step, handleWorkResult, workResultEvents, if_neg h1]
        rw [if_neg h2, if_neg hps]
        simp [applyEvent]
    constructor
    · rw [hrec, markCheckedRun_eq_map]
      simp
    · intro i hi
      rw [hrec, markCheckedRun_eq_map,
        records_getD_map _ _ i hi]
      by_cases hin : (st.records.getD i ⟨0, "", Status.uncheck, 0⟩).pwd ∈ ps
      · rw [if_pos hin]
        exact ⟨rfl, rfl, Or.inr (Or.inr (Or.inl ⟨b, s, fp, ps, cid, rfl, hin, rfl⟩))⟩
      · rw [if_neg hin]
        exact ⟨rfl, rfl, Or.inl rfl⟩
  | workFound p cid =>
    by_cases h1 : p = "" ∨ cid = ""
    · have hunch : (step cfg st (Request.workFound p cid) t).1.records = st.records := by
        simp [step, handleWorkFound, h1]
      rw [hunch]
      exact ⟨rfl, fun i _ => ⟨rfl, rfl, Or.inl rfl⟩⟩
    · have hunch : (step cfg st (Request.workFound p cid) t).1.records = st.records := by
        simp [step, handleWorkFound, h1]
      rw [hunch]
      exact ⟨rfl, fun i _ => ⟨rfl, rfl, Or.inl rfl⟩⟩
  | resetFound =>
    by_cases h1 : cfg.dbName ≠ "lucky-sample.db"
    · have hunch : (step cfg st Request.resetFound t).1.records = st.records := by
        simp [step, handleResetFound, h1]
      rw [hunch]
      exact ⟨rfl, fun i _ => ⟨rfl, rfl, Or.inl rfl⟩⟩
    have hrec : (step cfg st Request.resetFound t).1.records =
        resetAllRows t.now st.records := by
      simp [step, handleResetFound, h1]
    constructor
    · rw [hrec]
      simp [resetAllRows]
    · intro i hi
      rw [hrec, resetAllRows,
        records_getD_map _ _ i hi]
      exact ⟨rfl, rfl, Or.inr (Or.inr (Or.inr (Or.inr ⟨rfl, rfl⟩)))⟩
  | resetTimeout =>
    have hrec : (step cfg st Request.resetTimeout t).1.records =
        resetStale t.now st.records := rfl
    constructor
    · rw [hrec]
      simp [resetStale]
    · intro i hi
      rw [hrec, resetStale,
        records_getD_map _ _ i hi]
      by_cases hstale : staleChecking t.now (st.records.getD i ⟨0, "", Status.uncheck, 0⟩) = true
      · rw [if_pos hstale]
        exact ⟨rfl, rfl, Or.inr (Or.inr (Or.inr (Or.inl
          ⟨rfl, ((staleChecking_eq_true_iff _ _).mp hstale).1, rfl⟩)))⟩
      · rw [if_neg hstale]
        exact ⟨rfl, rfl, Or.inl rfl⟩

/-- Witness for claim C4 as amended, at a concrete store and request
(discharging the unique-id hypothesis). -/
theorem step_status_machine_witness :
    (step ⟨"tok", "lucky.db", ⟨"", "", "", "", 0⟩⟩
        ⟨[⟨1, "a", Status.checking, 0⟩, ⟨2, "b", Status.uncheck, 0⟩], false, []⟩
        Request.resetTimeout ⟨9999, 0, ""⟩).1.records.length =
      ([⟨1, "a", Status.checking, 0⟩, ⟨2, "b", Status.uncheck, 0⟩] : List Row).length :=
  (step_status_machine ⟨"tok", "lucky.db", ⟨"", "", "", "", 0⟩⟩
    ⟨[⟨1, "a", Status.checking, 0⟩, ⟨2, "b", Status.uncheck, 0⟩], false, []⟩
    Request.resetTimeout ⟨9999, 0, ""⟩ (by decide)).1

/-- Claim C6 counterexample. For a configured secret that itself begins
with "Bearer " the two presentation forms are not accepted identically:
the hook strips a "Bearer " prefix from whichever header it reads, so
the secret in the dedicated `x-api-token` header is rejected 403 while
the `Authorization: Bearer <secret>` form is accepted. -/
theorem authCheck_bearer_prefixed_secret_counterexample :
    authCheck "Bearer x" Method.post none (some "Bearer x") =
      AuthResult.denied 403 "Invalid API token" ∧
    authCheck "Bearer x" Method.post (some ("Bearer " ++ "Bearer x")) none =
      AuthResult.allowed := by
  decide

/-- Claim C6 as amended. GET requests are never checked; with no secret
configured every POST is rejected 401 "API token required but not
configured"; with a secret configured, a POST with no (or empty) token
headers is rejected 401, a POST whose presented token does not match
after optional "Bearer " stripping is rejected 403, presenting the
secret as `Authorization: Bearer <secret>` is accepted, and presenting
it in the dedicated `x-api-token` header is accepted provided the secret
does not itself begin with "Bearer " (the hook strips that prefix from
whichever header it reads). -/
theorem authCheck_contract (apiToken : String) (authHeader xApiToken : Option String) :
    (authCheck apiToken Method.get authHeader xApiToken = AuthResult.allowed) ∧
    (apiToken = "" →
      authCheck apiToken Method.post authHeader xApiToken =
        AuthResult.denied 401 "API token required but not configured") ∧
    (apiToken ≠ "" →
      (jsOrHeader authHeader xApiToken = none ∨ jsOrHeader authHeader xApiToken = some "") →
      authCheck apiToken Method.post authHeader xApiToken =
        AuthResult.denied 401 "API token required") ∧
    (apiToken ≠ "" → ∀ tok, jsOrHeader authHeader xApiToken = some tok → tok ≠ "" →
      (if strStartsWith tok "Bearer " then strDropChars tok 7 else tok) ≠ apiToken →
      authCheck apiToken Method.post authHeader xApiToken =
        AuthResult.denied 403 "Invalid API token") ∧
    (apiToken ≠ "" →
      authCheck apiToken Method.post (some ("Bearer " ++ apiToken)) xApiToken =
        AuthResult.allowed) ∧
    (apiToken ≠ "" → strStartsWith apiToken "Bearer " = false →
      authCheck apiToken Method.post none (some apiToken) = AuthResult.allowed) := by
  have hadata : ("Bearer " ++ apiToken).data = "Bearer ".data ++ apiToken.data :=
    String.data_append _ _
  refine ⟨rfl, ?_, ?_, ?_, ?_, ?_⟩
  · intro h
    simp [authCheck, h]
  · intro h hnone
    rcases hnone with h0 | h0 <;> simp [authCheck, h, h0]
  · intro h tok htok hne hmis
    simp [authCheck, h, htok, hne, hmis]
  · intro h
    have hne2 : ("Bearer " ++ apiToken) ≠ "" := by
      intro hcon
      have h2 := congrArg String.data hcon
      rw [hadata] at h2
      simp at h2
    have hsw : strStartsWith ("Bearer " ++ apiToken) "Bearer " = true := by
      rw [strStartsWith, hadata]
      exact List.isPrefixOf_iff_prefix.mpr (List.prefix_append _ _)
    have hdrop : strDropChars ("Bearer " ++ apiToken) 7 = apiToken := by
      rw [strDropChars, hadata]
      have h7 : (7 : Nat) = "Bearer ".data.length := by decide
      rw [h7, List.drop_left]
    simp [authCheck, jsOrHeader, hne2, h, hsw, hdrop]
  · intro h hnb
    simp [authCheck, jsOrHeader, h, hnb]

/-- Witness for claim C6 as amended: the Bearer presentation of a
concrete secret is authorized. -/
theorem authCheck_contract_witness :
    authCheck "tok" Method.post (some ("Bearer " ++ "tok")) none = AuthResult.allowed :=
  (authCheck_contract "tok" (some ("Bearer " ++ "tok")) none).2.2.2.2.1 (by decide)

/-- A ciphertext whose byte length is not a multiple of 16 makes the
no-padding CBC decryption fail with a cipher error (as `final()` does). -/
theorem aesCbcDecryptNoPad_error_of_unaligned (key iv ct : List Nat)
    (h : ct.length % 16 ≠ 0) :
    ∃ msg, aesCbcDecryptNoPad key iv ct = Except.error msg := by
  unfold aesCbcDecryptNoPad
  by_cases h1 : key.length ≠ 32
  · exact ⟨_, if_pos h1⟩
  · rw [if_neg h1]
    by_cases h2 : iv.length ≠ 16
    · exact ⟨_, if_pos h2⟩
    · rw [if_neg h2, if_pos h]
      exact ⟨_, rfl⟩

/-- Claim C7. A single verification trial is total — it produces a match
or non-match Boolean for every passphrase and wallet descriptor — and a
ciphertext whose byte length is not a multiple of 16 yields a non-match
(the cipher error is absorbed by the `try/catch` of `decryptMasterKey`)
rather than an uncaught exception. -/
theorem singleTrial_total_and_absorbs_cipher_errors (pw : String) (e : EncryptDesc) :
    (singleTrial pw e = true ∨ singleTrial pw e = false) ∧
    ((hexToBytes e.encrypted_key).length % 16 ≠ 0 → singleTrial pw e = false) := by
  refine ⟨Bool.eq_false_or_eq_true _, ?_⟩
  intro h
  obtain ⟨msg, hmsg⟩ := aesCbcDecryptNoPad_error_of_unaligned
    (deriveKeyFromPassword pw e.salt e.derivationiterations).1
    (deriveKeyFromPassword pw e.salt e.derivationiterations).2
    (hexToBytes e.encrypted_key) h
  simp [singleTrial, decryptMasterKey, hmsg]

/-- Witness for claim C7: a one-byte encrypted master key is unaligned,
and the trial on it is a non-match rather than an error. -/
theorem singleTrial_total_and_absorbs_cipher_errors_witness :
    (hexToBytes (EncryptDesc.mk "00" "" "04" "" 1).encrypted_key).length % 16 ≠ 0 ∧
    singleTrial "a" (EncryptDesc.mk "00" "" "04" "" 1) = false :=
  ⟨by decide,
   (singleTrial_total_and_absorbs_cipher_errors "a" (EncryptDesc.mk "00" "" "04" "" 1)).2
     (by decide)⟩

/-- The insertion step only threads the count through: starting it at `c`
shifts the final count by `c`. -/
theorem insertStep_shift (t : Nat) (d : Db) (c : Nat) (e : JsEntry) :
    insertStep t (d, c) e = ((insertStep t (d, 0) e).1, (insertStep t (d, 0) e).2 + c) := by
  cases e with
  | nonString => simp [insertStep]
  | str s =>
    by_cases hs : (jsTrim s == "") = true
    · simp [insertStep, hs]
    · simp [insertStep, hs, Nat.add_comm, Nat.add_left_comm]

/-- Folding the insertion step from count `c` shifts the final count. -/
theorem foldl_insertStep_shift (t : Nat) (l : List JsEntry) (d : Db) (c : Nat) :
    l.foldl (insertStep t) (d, c) =
      ((l.foldl (insertStep t) (d, 0)).1, (l.foldl (insertStep t) (d, 0)).2 + c) := by
  induction l generalizing d c with
  | nil => simp
  | cons e rest ih =>
    rw [List.foldl_cons, List.foldl_cons, insertStep_shift]
    cases h1 : insertStep t (d, 0) e with
    | mk d1 c1 =>
      show List.foldl (insertStep t) (d1, c1 + c) rest =
        ((List.foldl (insertStep t) (d1, c1) rest).1,
         (List.foldl (insertStep t) (d1, c1) rest).2 + c)
      rw [ih d1 (c1 + c), ih d1 c1]
      simp [Nat.add_assoc]

/-- Transaction `insertMany` distributes over list append, summing the counts. -/
theorem insertMany_append (db : Db) (l1 l2 : List JsEntry) (t : Nat) :
    insertMany db (l1 ++ l2) t =
      ((insertMany (insertMany db l1 t).1 l2 t).1,
       (insertMany db l1 t).2 + (insertMany (insertMany db l1 t).1 l2 t).2) := by
  cases h1 : insertMany db l1 t with
  | mk d1 c1 =>
    have h1e : List.foldl (insertStep t) (db, 0) l1 = (d1, c1) := h1
    rw [insertMany, List.foldl_append, h1e, foldl_insertStep_shift]
    have h2 : List.foldl (insertStep t) (d1, 0) l2 = insertMany d1 l2 t := rfl
    rw [h2]
    simp [Nat.add_comm]

/-- Chunked insertion is plain insertion (fuel-general form). -/
theorem chunksGo_foldl_insertMany (bsize t : Nat) (hb : 0 < bsize) :
    ∀ (fuel : Nat) (l : List JsEntry) (db : Db) (c : Nat), l.length ≤ fuel →
      (chunksGo bsize fuel l).foldl
        (fun acc batch =>
          let r := insertMany acc.1 batch t
          (r.1, acc.2 + r.2)) (db, c) =
      ((insertMany db l t).1, c + (insertMany db l t).2) := by
  intro fuel
  induction fuel with
  | zero =>
    intro l db c hl
    have : l = [] := List.eq_nil_of_length_eq_zero (Nat.le_zero.mp hl)
    subst this
    simp [chunksGo, insertMany]
  | succ fuel ih =>
    intro l db c hl
    cases l with
    | nil => simp [chunksGo, insertMany]
    | cons x xs =>
      rw [show chunksGo bsize (fuel + 1) (x :: xs) =
        (x :: xs).take bsize :: chunksGo bsize fuel ((x :: xs).drop bsize) from rfl]
      rw [List.foldl_cons]
      have hdl : ((x :: xs).drop bsize).length ≤ fuel := by
        rw [List.length_drop]
        have := List.length_cons x xs ▸ hl
        omega
      rw [ih ((x :: xs).drop bsize) (insertMany db ((x :: xs).take bsize) t).1
        (c + (insertMany db ((x :: xs).take bsize) t).2) hdl]
      have happ := insertMany_append db ((x :: xs).take bsize) ((x :: xs).drop bsize) t
      rw [List.take_append_drop] at happ
      rw [happ]
      simp [Nat.add_assoc]

/-- Chunked `insertToDb` with a positive batch size equals the single-batch
transaction. -/
theorem insertToDb_eq_insertMany (db : Db) (l : List JsEntry) (bsize t : Nat)
    (hb : 0 < bsize) : insertToDb db l bsize t = insertMany db l t := by
  rw [insertToDb, chunksOf,
    chunksGo_foldl_insertMany bsize t hb l.length l db 0 (Nat.le_refl _)]
  simp

/-- SQL `INSERT OR IGNORE` only ever appends rows. -/
theorem insertOrIgnore_rows_grow (db : Db) (p : String) (t : Nat) :
    db.rows <+: (insertOrIgnore db p t).1.rows := by
  rw [insertOrIgnore]
  split
  · exact List.prefix_refl _
  · exact List.prefix_append _ _

/-- The insertion step only ever appends rows. -/
theorem insertStep_rows_grow (t : Nat) (acc : Db × Nat) (e : JsEntry) :
    acc.1.rows <+: (insertStep t acc e).1.rows := by
  cases e with
  | nonString => exact List.prefix_refl _
  | str s =>
    by_cases hs : (jsTrim s == "") = true
    · simp only [insertStep, hs, if_pos]
      exact List.prefix_refl _
    · simp only [insertStep, hs, if_false, Bool.false_eq_true]
      exact insertOrIgnore_rows_grow _ _ _

/-- Folding the insertion step only ever appends rows. -/
theorem foldl_insertStep_grows (t : Nat) (l : List JsEntry) :
    ∀ (acc : Db × Nat), acc.1.rows <+: (l.foldl (insertStep t) acc).1.rows := by
  induction l with
  | nil => intro acc; exact List.prefix_refl _
  | cons e rest ih =>
    intro acc
    rw [List.foldl_cons]
    exact (insertStep_rows_grow t acc e).trans (ih _)

/-- After `INSERT OR IGNORE`, a row holding the passphrase exists. -/
theorem insertOrIgnore_contains (db : Db) (p : String) (t : Nat) :
    ∃ r ∈ (insertOrIgnore db p t).1.rows, r.pwd = p := by
  by_cases h : db.rows.any (fun r => r.pwd == p) = true
  · obtain ⟨r, hr, hpr⟩ := List.any_eq_true.mp h
    exact ⟨r, by simp [insertOrIgnore, h, hr], by simpa using hpr⟩
  · refine ⟨⟨db.nextId, p, Status.uncheck, t⟩, ?_, rfl⟩
    simp [insertOrIgnore, h]

/-- One insertion step grows the row list by exactly its count
increment. -/
theorem insertStep_zero_length (db : Db) (t : Nat) (e : JsEntry) :
    (insertStep t (db, 0) e).1.rows.length = db.rows.length + (insertStep t (db, 0) e).2 := by
  cases e with
  | nonString => simp [insertStep]
  | str s =>
    by_cases hs : (jsTrim s == "") = true
    · simp [insertStep, hs]
    · by_cases h : db.rows.any (fun r => r.pwd == jsTrim s) = true
      · simp [insertStep, hs, insertOrIgnore, h]
      · simp [insertStep, hs, insertOrIgnore, h]

/-- The transaction's returned count equals the number of rows appended. -/
theorem insertMany_length (db : Db) (l : List JsEntry) (t : Nat) :
    (insertMany db l t).1.rows.length = db.rows.length + (insertMany db l t).2 := by
  induction l generalizing db with
  | nil => simp [insertMany]
  | cons e rest ih =>
    have hcons : insertMany db (e :: rest) t =
        ((insertMany (insertStep t (db, 0) e).1 rest t).1,
         (insertMany (insertStep t (db, 0) e).1 rest t).2 + (insertStep t (db, 0) e).2) := by
      rw [insertMany, List.foldl_cons]
      cases h1 : insertStep t (db, 0) e with
      | mk d1 c1 =>
        show List.foldl (insertStep t) (d1, c1) rest = _
        rw [foldl_insertStep_shift]
        rfl
    have hfst : (insertMany db (e :: rest) t).1 =
        (insertMany (insertStep t (db, 0) e).1 rest t).1 := by rw [hcons]
    have hsnd : (insertMany db (e :: rest) t).2 =
        (insertMany (insertStep t (db, 0) e).1 rest t).2 + (insertStep t (db, 0) e).2 := by
      rw [hcons]
    rw [hfst, hsnd]
    have h1 := ih (insertStep t (db, 0) e).1
    have h2 := insertStep_zero_length db t e
    omega

/-- SQL `INSERT OR IGNORE` preserves passphrase uniqueness. -/
theorem insertOrIgnore_nodup (db : Db) (p : String) (t : Nat)
    (h : (db.rows.map Row.pwd).Nodup) :
    ((insertOrIgnore db p t).1.rows.map Row.pwd).Nodup := by
  by_cases hany : db.rows.any (fun r => r.pwd == p) = true
  · rw [insertOrIgnore, if_pos hany]
    exact h
  · rw [insertOrIgnore, if_neg hany]
    show ((db.rows ++ [(⟨db.nextId, p, Status.uncheck, t⟩ : Row)]).map Row.pwd).Nodup
    rw [List.map_append, List.nodup_append]
    refine ⟨h, by simp, ?_⟩
    intro x hx hx2
    have hxp : x = p := by simpa using hx2
    subst hxp
    obtain ⟨r, hr, hrp⟩ := List.mem_map.mp hx
    exact hany (List.any_eq_true.mpr ⟨r, hr, by simp [hrp]⟩)

/-- The transaction preserves passphrase uniqueness. -/
theorem insertMany_nodup (db : Db) (l : List JsEntry) (t : Nat)
    (h : (db.rows.map Row.pwd).Nodup) :
    ((insertMany db l t).1.rows.map Row.pwd).Nodup := by
  suffices hgen : ∀ (acc : Db × Nat), (acc.1.rows.map Row.pwd).Nodup →
      ((l.foldl (insertStep t) acc).1.rows.map Row.pwd).Nodup from hgen (db, 0) h
  induction l with
  | nil => intro acc ha; exact ha
  | cons e rest ih =>
    intro acc ha
    rw [List.foldl_cons]
    refine ih _ ?_
    cases e with
    | nonString => exact ha
    | str s =>
      by_cases hs : (jsTrim s == "") = true
      · simpa [insertStep, hs] using ha
      · have hoi := insertOrIgnore_nodup acc.1 (jsTrim s) t ha
        simpa [insertStep, hs] using hoi

/-- Every string entry with a non-empty trim ends up present (trimmed). -/
theorem foldl_insertStep_mem (t : Nat) (s : String) (hne : jsTrim s ≠ "") :
    ∀ (l : List JsEntry) (acc : Db × Nat), JsEntry.str s ∈ l →
      ∃ r ∈ (l.foldl (insertStep t) acc).1.rows, r.pwd = jsTrim s := by
  intro l
  induction l with
  | nil => intro acc hs; exact absurd hs (List.not_mem_nil _)
  | cons e rest ih =>
    intro acc hs
    rw [List.foldl_cons]
    rcases List.mem_cons.mp hs with he | hrest
    · have hcontains : ∃ r ∈ (insertStep t acc e).1.rows, r.pwd = jsTrim s := by
        rw [← he]
        have hstep : (insertStep t acc (JsEntry.str s)).1 =
            (insertOrIgnore acc.1 (jsTrim s) t).1 := by
          simp [insertStep, hne]
        rw [hstep]
        exact insertOrIgnore_contains acc.1 (jsTrim s) t
      obtain ⟨r, hr, hrp⟩ := hcontains
      exact ⟨r, (foldl_insertStep_grows t rest _).subset hr, hrp⟩
    · exact ih _ hrest

/-- Every row after the transaction is an original row or a freshly
inserted trimmed string entry, UNCHECKED with the insertion timestamp. -/
theorem foldl_insertStep_rows (t : Nat) :
    ∀ (l : List JsEntry) (acc : Db × Nat) (r : Row),
      r ∈ (l.foldl (insertStep t) acc).1.rows →
      r ∈ acc.1.rows ∨ ∃ s, JsEntry.str s ∈ l ∧ jsTrim s ≠ "" ∧ r.pwd = jsTrim s ∧
        r.status = Status.uncheck ∧ r.updated_at = t := by
  intro l
  induction l with
  | nil => intro acc r hr; exact Or.inl hr
  | cons e rest ih =>
    intro acc r hr
    rw [List.foldl_cons] at hr
    rcases ih _ r hr with hin | ⟨s, hs, hneq, hp1, hp2, hp3⟩
    · cases e with
      | nonString => exact Or.inl hin
      | str s =>
        by_cases hst : (jsTrim s == "") = true
        · left
          have hstep : (insertStep t acc (JsEntry.str s)).1 = acc.1 := by
            simp [insertStep, hst]
          rw [hstep] at hin
          exact hin
        · have hstep : (insertStep t acc (JsEntry.str s)).1 =
              (insertOrIgnore acc.1 (jsTrim s) t).1 := by
            simp [insertStep, hst]
          rw [hstep, insertOrIgnore] at hin
          by_cases hany : acc.1.rows.any (fun r2 => r2.pwd == jsTrim s) = true
          · rw [if_pos hany] at hin
            exact Or.inl hin
          · rw [if_neg hany] at hin
            rcases List.mem_append.mp hin with h | h
            · exact Or.inl h
            · right
              have hr2 : r = ⟨acc.1.nextId, jsTrim s, Status.uncheck, t⟩ := by
                simpa using h
              refine ⟨s, List.mem_cons_self _ _, by simpa using hst, ?_, ?_, ?_⟩ <;>
                rw [hr2]
    · right
      exact ⟨s, List.mem_cons_of_mem _ hs, hneq, hp1, hp2, hp3⟩

/-- Entries that are not strings, or blank after trimming, are skipped. -/
theorem insertMany_skip (db : Db) (e : JsEntry) (l : List JsEntry) (t : Nat)
    (h : validEntry e = false) : insertMany db (e :: l) t = insertMany db l t := by
  cases e with
  | nonString => rfl
  | str s =>
    have hs : (jsTrim s == "") = true := by simpa [validEntry] using h
    rw [insertMany, List.foldl_cons]
    rw [show insertStep t (db, 0) (JsEntry.str s) = (db, 0) from by simp [insertStep, hs]]
    rfl

/-- Claim C10. `insertToDb` trims each string entry, silently skips
non-string entries and entries blank after trimming, keeps passphrases
unique (so entries differing only in surrounding whitespace share the
single row holding the trimmed string), marks new rows UNCHECKED with
the insertion timestamp, and returns exactly the number of rows newly
inserted. -/
theorem insertToDb_contract (db : Db) (l : List JsEntry) (bsize t : Nat)
    (hb : 0 < bsize) (hnodup : (db.rows.map Row.pwd).Nodup) :
    ((insertToDb db l bsize t).1.rows.length =
       db.rows.length + (insertToDb db l bsize t).2) ∧
    (((insertToDb db l bsize t).1.rows.map Row.pwd).Nodup) ∧
    (∀ s, JsEntry.str s ∈ l → jsTrim s ≠ "" →
      ∃ r ∈ (insertToDb db l bsize t).1.rows, r.pwd = jsTrim s) ∧
    (∀ r ∈ (insertToDb db l bsize t).1.rows, r ∈ db.rows ∨
      ∃ s, JsEntry.str s ∈ l ∧ jsTrim s ≠ "" ∧ r.pwd = jsTrim s ∧
        r.status = Status.uncheck ∧ r.updated_at = t) ∧
    (∀ (e : JsEntry) (rest : List JsEntry), validEntry e = false →
      insertToDb db (e :: rest) bsize t = insertToDb db rest bsize t) := by
  rw [insertToDb_eq_insertMany db l bsize t hb]
  refine ⟨insertMany_length db l t, insertMany_nodup db l t hnodup,
    fun s hs hne => foldl_insertStep_mem t s hne l (db, 0) hs,
    fun r hr => foldl_insertStep_rows t l (db, 0) r hr, ?_⟩
  intro e rest he
  rw [insertToDb_eq_insertMany db (e :: rest) bsize t hb,
    insertToDb_eq_insertMany db rest bsize t hb]
  exact insertMany_skip db e rest t he

/-- Witness for claim C10: inserting two whitespace variants of "a", a
non-string and a blank entry into an empty store inserts exactly one
row. -/
theorem insertToDb_contract_witness :
    (insertToDb ⟨[], 1⟩ [JsEntry.str " a", JsEntry.str "a ", JsEntry.nonString,
        JsEntry.str "  "] 2 7).1.rows.length =
      (⟨[], 1⟩ : Db).rows.length +
        (insertToDb ⟨[], 1⟩ [JsEntry.str " a", JsEntry.str "a ", JsEntry.nonString,
          JsEntry.str "  "] 2 7).2 :=
  (insertToDb_contract ⟨[], 1⟩ [JsEntry.str " a", JsEntry.str "a ", JsEntry.nonString,
    JsEntry.str "  "] 2 7 (by decide) (by decide)).1

/-- Witness for claim C5 at a concrete store: one stale CHECKING row, one
fresh CHECKING row, one CHECKED row; exactly the stale one is counted. -/
theorem workResetTimeout_reclaims_exactly_stale_witness :
    (step ⟨"tok", "lucky.db", ⟨"", "", "", "", 0⟩⟩
        ⟨[⟨1, "a", Status.checking, 0⟩, ⟨2, "b", Status.checking, 3999⟩,
          ⟨3, "c", Status.checked, 0⟩], false, []⟩
        Request.resetTimeout ⟨4000, 0, ""⟩).2 = Response.resetTimeoutOk 1 := by
  rw [(workResetTimeout_reclaims_exactly_stale
    ⟨"tok", "lucky.db", ⟨"", "", "", "", 0⟩⟩
    ⟨[⟨1, "a", Status.checking, 0⟩, ⟨2, "b", Status.checking, 3999⟩,
      ⟨3, "c", Status.checked, 0⟩], false, []⟩ ⟨4000, 0, ""⟩).2.2.1]
  decide

end LuckyDog
